import Mathlib

/-!
Verification development for the NBA_AI play-by-play → game-state pipeline.

This file shallowly embeds the parts of the repository that the checked
properties concern:

* `src/database_updater/game_states.py`:
  `create_game_states` (sorting, description filtering, the live-endpoint
  and stats-endpoint reduction branches, terminal-state marking) and
  `save_game_states` (per-game transactional delete-then-reinsert).
* `src/database_updater/database_update_manager.py`:
  `_mark_pbp_games_finalized`, `_mark_boxscore_games_finalized`, the
  `pre_game_data_finalized` recomputation inside `update_pre_game_data`,
  and the SQL selection predicates of `get_games_needing_pbp_update` /
  `get_games_needing_boxscores`.
* `src/database_updater/validators.py`: `PbPValidator.validate`.

Python exceptions are modelled with `Option` (`none` = an exception is
raised); SQLite tables are modelled as Lean lists of row structures, a
database connection as a record of tables; timestamps are abstracted to
integers ordered like the SQL datetime strings they stand for.
-/

/-! ### Python-style string/number parsing

`create_game_states` parses numbers out of strings with Python's `int()`
and `float()`.  We model the decimal forms these calls see in this code
path: an optional sign followed by digits, with an optional fractional
part for `float()`.  Parse failure models the `ValueError` Python raises.
-/

/-- Python `s.split(sep)` for a single-character separator (the only kind
this code uses: `"M"`, `"T"`, `"-"`).  Always returns at least one part. -/
def pySplit (sep : Char) : List Char → List (List Char)
  | [] => [[]]
  | c :: rest =>
    let r := pySplit sep rest
    if c = sep then [] :: r
    else
      match r with
      | [] => [[c]]
      | h :: t => (c :: h) :: t

/-- Natural number denoted by a nonempty list of decimal digit characters. -/
def natOfDigits (l : List Char) : Option Nat :=
  if l ≠ [] ∧ l.all Char.isDigit then
    some (l.foldl (fun a c => a * 10 + (c.toNat - 48)) 0)
  else none

/-- Model of Python `int(s)` on decimal strings: optional sign, then digits. -/
def pyInt (s : String) : Option Int :=
  match s.toList with
  | '+' :: rest => (natOfDigits rest).map Int.ofNat
  | '-' :: rest => (natOfDigits rest).map (fun n => -(n : Int))
  | l => (natOfDigits l).map Int.ofNat

/-- Exact decimal fraction `num / 10 ^ exp`, kept unnormalized so that all
arithmetic and comparisons kernel-reduce.  This models the Python floats
appearing here: the strings parsed are short decimals, whose correctly
rounded `float` values compare exactly like the decimals they denote. -/
structure Dec where
  num : Int
  exp : Nat
  deriving Repr, DecidableEq

def Dec.ofInt (n : Int) : Dec := ⟨n, 0⟩

def Dec.add (a b : Dec) : Dec :=
  ⟨a.num * (10 : Int) ^ b.exp + b.num * (10 : Int) ^ a.exp, a.exp + b.exp⟩

def Dec.neg (a : Dec) : Dec := ⟨-a.num, a.exp⟩

/-- Value comparison `a ≤ b` by cross multiplication. -/
def Dec.le (a b : Dec) : Bool :=
  a.num * (10 : Int) ^ b.exp ≤ b.num * (10 : Int) ^ a.exp

/-- Value comparison `a < b` by cross multiplication. -/
def Dec.lt (a b : Dec) : Bool :=
  a.num * (10 : Int) ^ b.exp < b.num * (10 : Int) ^ a.exp

/-- Value equality by cross multiplication. -/
def Dec.eqv (a b : Dec) : Bool :=
  a.num * (10 : Int) ^ b.exp = b.num * (10 : Int) ^ a.exp

/-- Model of Python `float(s)` on plain decimal strings:
optional sign, then `digits`, `digits.`, `digits.digits` or `.digits`. -/
def pyFloat (s : String) : Option Dec :=
  let core : List Char → Option Dec := fun l =>
    match pySplit '.' l with
    | [ds] => (natOfDigits ds).map (fun n => Dec.ofInt n)
    | [ds, fs] =>
      if ds = [] then
        -- ".5" form: fractional digits required
        if fs ≠ [] ∧ fs.all Char.isDigit then
          some ⟨(fs.foldl (fun a c => a * 10 + (c.toNat - 48)) 0 : Nat), fs.length⟩
        else none
      else if ds.all Char.isDigit ∧ fs.all Char.isDigit then
        some ⟨((ds ++ fs).foldl (fun a c => a * 10 + (c.toNat - 48)) 0 : Nat), fs.length⟩
      else none
    | _ => none
  match s.toList with
  | '+' :: rest => core rest
  | '-' :: rest => (core rest).map Dec.neg
  | l => core l

/-- `duration_to_seconds` from `create_game_states`:
`minutes = int(s.split("M")[0][2:]); seconds = float(s.split("M")[1][:-1])`.
`none` models the exception raised on an unparsable clock string
(IndexError when there is no `"M"`, ValueError from `int`/`float`). -/
def durationToSeconds (s : String) : Option Dec := do
  let parts := pySplit 'M' s.toList
  let p0 ← parts[0]?
  let m ← pyInt (String.mk (p0.drop 2))
  let p1 ← parts[1]?
  let sec ← pyFloat (String.mk p1.dropLast)
  pure (Dec.add (Dec.ofInt (m * 60)) sec)

-- quick sanity examples (defaults used by the source)
example : (durationToSeconds "PT00M00.00S").map (Dec.eqv (Dec.ofInt 0)) = some true := by
  decide
example : (durationToSeconds "PT11M30.50S").map (Dec.eqv ⟨6905, 1⟩) = some true := by
  decide
example : durationToSeconds "garbage" = none := by decide

/-! ### Data model for `create_game_states`

A raw play-by-play record (`RawEvent`) is a JSON object with optional
fields; `none` models an absent key.  Score fields arrive as JSON strings
in both endpoint shapes; numeric ordering keys, period, `personId` and
`pointsTotal` arrive as JSON numbers. -/

structure RawEvent where
  period : Option Int := none
  clock : Option String := none
  orderNumber : Option Int := none
  actionId : Option Int := none
  description : Option String := none
  personId : Option Int := none
  playerNameI : Option String := none
  teamTricode : Option String := none
  pointsTotal : Option Int := none
  scoreHome : Option String := none
  scoreAway : Option String := none
  actionType : Option String := none
  subType : Option String := none
  deriving Repr, DecidableEq

/-- One per-player entry of `players[team][player_id]`. -/
structure PlayerEntry where
  name : String
  points : Int
  deriving Repr, DecidableEq

/-- The `players = {"home": {}, "away": {}}` accumulator.  Python dicts
preserve insertion order, so each side is an association list in insertion
order. -/
structure Players where
  home : List (Int × PlayerEntry) := []
  away : List (Int × PlayerEntry) := []
  deriving Repr, DecidableEq

/-- One emitted game-state snapshot (the dict appended to
`game_states[game_id]`). -/
structure GameState where
  game_id : String
  play_id : Int
  game_date : String
  home : String
  away : String
  clock : String
  period : Int
  home_score : Int
  away_score : Int
  total : Int
  home_margin : Int
  is_final_state : Bool
  players_data : Players
  deriving Repr, DecidableEq

/-- Python truthiness of an optional string (`None` and `""` are falsy). -/
def truthyStr : Option String → Bool
  | some s => s ≠ ""
  | none => false

/-- Python truthiness of an optional number (`None` and `0` are falsy). -/
def truthyInt : Option Int → Bool
  | some n => n ≠ 0
  | none => false

/-- `if player_id not in players[team]: players[team][player_id] = {name, 0}` -/
def ensurePlayer (m : List (Int × PlayerEntry)) (pid : Int) (name : String) :
    List (Int × PlayerEntry) :=
  if m.any (fun p => p.1 = pid) then m else m ++ [(pid, ⟨name, 0⟩)]

/-- `players[team][player_id]["points"] = pts` -/
def setPoints (m : List (Int × PlayerEntry)) (pid : Int) (pts : Int) :
    List (Int × PlayerEntry) :=
  m.map (fun p => if p.1 = pid then (p.1, ⟨p.2.name, pts⟩) else p)

/-- Player bookkeeping of the live-endpoint branch (lines 122-140 of
`game_states.py`): both `personId` and `playerNameI` must be non-`None`,
the tricode must be truthy; the side is `home` iff the tricode equals the
home tricode, otherwise `away`; `pointsTotal`, when non-`None`, overwrites
the player's cumulative points. -/
def updatePlayersLive (home : String) (players : Players) (row : RawEvent) : Players :=
  match row.personId, row.playerNameI with
  | some pid, some pname =>
    if truthyStr row.teamTricode then
      let isHome := row.teamTricode.getD "" = home
      let m := if isHome then players.home else players.away
      let m := ensurePlayer m pid pname
      let m :=
        match row.pointsTotal with
        | some pts => setPoints m pid pts
        | none => m
      if isHome then { players with home := m } else { players with away := m }
    else players
  | _, _ => players

/-- First match of the pattern `\((\d+) PTS\)` starting exactly at the head
of the character list.  A maximal digit run followed by the literal
`" PTS)"` is equivalent to the regex's greedy `\d+` here, because giving
back a digit would place a digit where the space must match. -/
def matchPtsAt : List Char → Option Nat
  | '(' :: rest =>
    let ds := rest.takeWhile Char.isDigit
    let after := rest.drop ds.length
    if ds ≠ [] ∧ [' ', 'P', 'T', 'S', ')'].isPrefixOf after then
      some (ds.foldl (fun a c => a * 10 + (c.toNat - 48)) 0)
    else none
  | _ => none

/-- `re.search(r"\((\d+) PTS\)", s)`: leftmost match, returning group 1. -/
def findPts : List Char → Option Nat
  | [] => none
  | c :: rest =>
    match matchPtsAt (c :: rest) with
    | some n => some n
    | none => findPts rest

/-- Player bookkeeping of the stats-endpoint branch (lines 177-195):
`personId` and `playerNameI` must be truthy; the cumulative points are
scraped from the description via `\((\d+) PTS\)`. -/
def updatePlayersStats (home : String) (players : Players) (row : RawEvent) : Players :=
  if truthyInt row.personId ∧ truthyStr row.playerNameI then
    if truthyStr row.teamTricode then
      let pid := row.personId.getD 0
      let pname := row.playerNameI.getD ""
      let isHome := row.teamTricode.getD "" = home
      let m := if isHome then players.home else players.away
      let m := ensurePlayer m pid pname
      let m :=
        match findPts (row.description.getD "").toList with
        | some pts => setPoints m pid (pts : Int)
        | none => m
      if isHome then { players with home := m } else { players with away := m }
    else players
  else players

/-! ### Sorting and filtering -/

/-- The sort key
`(x.get("period", 1), -duration_to_seconds(x.get("clock", "PT00M00.00S")),
x.get("orderNumber", x.get("actionId", 0)))`; `none` models the exception
propagating out of `sorted` when a clock fails to parse. -/
def sortKey (row : RawEvent) : Option (Int × Dec × Int) := do
  let sec ← durationToSeconds (row.clock.getD "PT00M00.00S")
  pure (row.period.getD 1, Dec.neg sec, row.orderNumber.getD (row.actionId.getD 0))

/-- Lexicographic comparison of sort keys, mirroring Python tuple order. -/
def keyLe (a b : Int × Dec × Int) : Bool :=
  decide (a.1 < b.1) ||
    (decide (a.1 = b.1) &&
      (Dec.lt a.2.1 b.2.1 || (Dec.eqv a.2.1 b.2.1 && decide (a.2.2 ≤ b.2.2))))

/-- Key computation for every element, in list order, propagating the
first exception — Python's `sorted` computes all keys before comparing. -/
def keyedLogs : List RawEvent → Option (List ((Int × Dec × Int) × RawEvent))
  | [] => some []
  | l :: rest => do
    let k ← sortKey l
    let tail ← keyedLogs rest
    pure ((k, l) :: tail)

/-- `sorted(logs, key=...)`: Python computes every key first (propagating
any exception), then sorts stably.  Insertion sort over the total preorder
`keyLe` is stable, hence extensionally equal to Python's stable sort. -/
def sortLogs (logs : List RawEvent) : Option (List RawEvent) :=
  (keyedLogs logs).map
    (fun keyed =>
      (List.insertionSort (fun a b => keyLe a.1 b.1 = true) keyed).map Prod.snd)

/-- The sorted, description-filtered log list of one game (`logs` after
lines 95-105), `some []` when the raw list is empty (that path returns
before sorting). -/
def processedLogs (info_pbp : List RawEvent) : Option (List RawEvent) :=
  if info_pbp.isEmpty then some []
  else (sortLogs info_pbp).map (List.filter (fun l => l.description.isSome))

/-! ### The two reduction branches

Each branch walks the sorted, filtered `logs` in order.  The source marks
a state final via `i == len(logs) - 1`; in this structural recursion over
the very same list, that index condition is exactly "the remaining tail is
empty".  `none` models an exception (KeyError on the missing ordering key,
ValueError from `int()` on an unparsable score string), which the batch
handler turns into an empty overall result. -/

/-- `int(row.get("scoreHome", 0))` of the live branch: the default is the
integer 0 when the key is absent, otherwise the string value is parsed. -/
def liveScore : Option String → Option Int
  | none => some 0
  | some s => pyInt s

/-- The running-score update of the stats branch:
`if row.get("scoreHome"): current = int(row["scoreHome"])`. -/
def statsScore (cur : Int) (field : Option String) : Option Int :=
  if truthyStr field then pyInt (field.getD "") else some cur

/-- Live-endpoint branch (`"orderNumber" in logs[0]`, lines 120-170). -/
def runLive (gid gdate home away : String) :
    Players → List RawEvent → Option (List GameState)
  | _, [] => some []
  | players, row :: rest => do
    let players' := updatePlayersLive home players row
    let isFinal :=
      rest.isEmpty && row.actionType == some "game" && row.subType == some "end"
    let pid ← row.orderNumber
    let hs ← liveScore row.scoreHome
    let asc ← liveScore row.scoreAway
    let st : GameState :=
      { game_id := gid, play_id := pid, game_date := gdate, home := home,
        away := away, clock := row.clock.getD "PT00M00.00S",
        period := row.period.getD 1, home_score := hs, away_score := asc,
        total := hs + asc, home_margin := hs - asc, is_final_state := isFinal,
        players_data := players' }
    let tail ← runLive gid gdate home away players' rest
    pure (st :: tail)

/-- Stats-endpoint branch (lines 171-222), threading the running scores
`current_home_score` / `current_away_score` that start at 0. -/
def runStats (gid gdate home away : String) :
    Players → Int → Int → List RawEvent → Option (List GameState)
  | _, _, _, [] => some []
  | players, curH, curA, row :: rest => do
    let players' := updatePlayersStats home players row
    let curH' ← statsScore curH row.scoreHome
    let curA' ← statsScore curA row.scoreAway
    let pid ← row.actionId
    let st : GameState :=
      { game_id := gid, play_id := pid, game_date := gdate, home := home,
        away := away, clock := row.clock.getD "PT00M00.00S",
        period := row.period.getD 1, home_score := curH', away_score := curA',
        total := curH' + curA', home_margin := curH' - curA',
        is_final_state :=
          rest.isEmpty && row.actionType == some "game" && row.subType == some "end",
        players_data := players' }
    let tail ← runStats gid gdate home away players' curH' curA' rest
    pure (st :: tail)

/-! ### Per-game processing and the batch loop -/

/-- `validate_game_ids(game_id)` for a single id (utils.py lines 650-684):
truthy, 10 characters, starts with `"00"`. -/
def validGameId (gid : String) : Bool :=
  gid ≠ "" && gid.length = 10 && List.isPrefixOf "00".toList gid.toList

/-- `validate_date_format(date)` (utils.py lines 687-727).  `false` models
the ValueError it raises (including the tuple-unpacking error when the
split does not give exactly three parts). -/
def validDate (date : String) : Bool :=
  let l := date.toList
  if l.length ≠ 10 ∨ l[4]? ≠ some '-' ∨ l[7]? ≠ some '-' then false
  else
    match pySplit '-' l with
    | [y, m, d] =>
      if ¬(y ≠ [] ∧ y.all Char.isDigit) ∨ ¬(m ≠ [] ∧ m.all Char.isDigit)
          ∨ ¬(d ≠ [] ∧ d.all Char.isDigit) then false
      else
        let mv : Nat := m.foldl (fun a c => a * 10 + (c.toNat - 48)) 0
        let dv : Nat := d.foldl (fun a c => a * 10 + (c.toNat - 48)) 0
        if mv < 1 ∨ mv > 12 then false
        else if (mv = 4 ∨ mv = 6 ∨ mv = 9 ∨ mv = 11) ∧ dv > 30 then false
        else if mv = 2 ∧ dv > 29 then false
        else if dv < 1 ∨ dv > 31 then false
        else true
    | _ => false

/-- The per-game value of `games_info`. -/
structure GameInfo where
  home : String
  away : String
  date_time_utc : String
  pbp_logs : List RawEvent
  deriving Repr, DecidableEq

/-- `game_info["date_time_utc"].split("T")[0]`. -/
def gdateOf (info : GameInfo) : String :=
  String.mk ((pySplit 'T' info.date_time_utc.toList).headD [])

/-- Processing of one `(game_id, game_info)` pair inside the loop of
`create_game_states` (lines 77-222).  `none` models any exception
escaping this iteration into the batch-level handler.  The empty-input
and all-filtered-out paths yield `[]`; otherwise the branch is chosen by
probing the first surviving log for `orderNumber`. -/
def processGame (gid : String) (info : GameInfo) : Option (List GameState) :=
  if ¬ validGameId gid then none
  else if ¬ validDate (gdateOf info) then none
  else
    (processedLogs info.pbp_logs).bind (fun logs =>
      match logs with
      | [] => some []
      | first :: _ =>
        if first.orderNumber.isSome then
          runLive gid (gdateOf info) info.home info.away {} logs
        else
          runStats gid (gdateOf info) info.home info.away {} 0 0 logs)

/-- The game loop: each pair is processed in order, and the first
exception aborts the remaining iterations. -/
def processAll : List (String × GameInfo) → Option (List (String × List GameState))
  | [] => some []
  | p :: rest => do
    let sts ← processGame p.1 p.2
    let tail ← processAll rest
    pure ((p.1, sts) :: tail)

/-- `create_game_states(games_info)`.  The whole game loop sits in one
`try`; any exception makes the function log and return `{}` — dropping
even the games already processed.  A Python dict is modelled as an
association list in key order. -/
def createGameStates (gamesInfo : List (String × GameInfo)) :
    List (String × List GameState) :=
  (processAll gamesInfo).getD []

/-! ### Database model

SQLite tables are lists of row structures; the `Games` table, keyed by its
primary key, is a partial map from `game_id`.  Timestamp columns are
abstracted to integers (seconds) ordered like the SQL datetime strings;
`now - 300` stands for `datetime('now', '-5 minutes')`, `now - 1200` for
`datetime('now', '-20 minutes')`.  Boolean flag columns hold 0/1 in the
schema and are modelled as `Bool`. -/

structure GameRow where
  gameId : String
  season : String := ""
  seasonType : String := ""
  status : Int := 1
  statusText : String := ""
  gameDataFinalized : Bool := false
  boxscoreDataFinalized : Bool := false
  preGameDataFinalized : Bool := false
  pbpLastFetchedAt : Option Int := none
  boxscoreLastFetchedAt : Option Int := none
  gamestatesLastCreatedAt : Option Int := none
  deriving Repr, DecidableEq

/-- A row of `PbP_Logs`; only the columns the embedded queries read. -/
structure PbpRow where
  gameId : String
  playId : Int
  deriving Repr, DecidableEq

/-- A row of `GameStates` (the column list of the INSERT in
`save_game_states`). -/
structure GSRow where
  gameId : String
  playId : Int
  gameDate : String
  home : String
  away : String
  clock : String
  period : Int
  homeScore : Int
  awayScore : Int
  total : Int
  homeMargin : Int
  isFinalState : Bool
  playersData : Players
  deriving Repr, DecidableEq

/-- A row of `PlayerBox`; `min` is a nullable REAL, modelled as an exact
decimal. -/
structure PlayerBoxRow where
  gameId : String
  teamId : Int
  min : Option Dec := none
  deriving Repr, DecidableEq

structure DB where
  games : String → Option GameRow
  pbpLogs : List PbpRow := []
  gameStates : List GSRow := []
  playerBox : List PlayerBoxRow := []
  teamBox : List String := []   -- game_id of each TeamBox row

/-- `UPDATE Games SET ... WHERE game_id = gid` (no-op when no row). -/
def updateGame (db : DB) (gid : String) (f : GameRow → GameRow) : DB :=
  { db with games := fun g => if g = gid then (db.games g).map f else db.games g }

/-! ### `_mark_pbp_games_finalized` (database_update_manager.py 1260-1303) -/

/-- The per-game check:
`(SELECT COUNT(*) FROM PbP_Logs WHERE game_id = ?) > 0` and
`(SELECT COUNT(*) FROM GameStates WHERE game_id = ? AND is_final_state = 1) > 0`. -/
def pbpFinalPrecond (db : DB) (gid : String) : Bool :=
  decide (0 < (db.pbpLogs.filter (fun r => r.gameId == gid)).length) &&
    decide (0 < (db.gameStates.filter
      (fun r => r.gameId == gid && r.isFinalState)).length)

/-- The shared loop shape of both `_mark_*_games_finalized` functions:
games whose check passes get their flag column set to 1; all other games
are skipped (`continue`), their flag untouched; the accumulator carries
the connection and the `finalized` list. -/
def markStep (precond : DB → String → Bool) (set : GameRow → GameRow)
    (acc : DB × List String) (gid : String) : DB × List String :=
  if precond acc.1 gid then (updateGame acc.1 gid set, acc.2 ++ [gid]) else acc

/-- `_mark_pbp_games_finalized`: passing games get
`UPDATE Games SET game_data_finalized = 1`. -/
def markPbpGamesFinalized (db : DB) (gameIds : List String) : DB × List String :=
  gameIds.foldl
    (markStep pbpFinalPrecond (fun r => { r with gameDataFinalized := true }))
    (db, [])

/-! ### `_mark_boxscore_games_finalized` (lines 1306-1380) -/

def sumDec (l : List Dec) : Dec := l.foldl Dec.add (Dec.ofInt 0)

/-- The per-game check: at least 16 PlayerBox rows, exactly 2 TeamBox
rows, game status Final, and the per-team sums of non-NULL minutes form
exactly 2 groups, each `≥ 239`.  The scalar status subquery yields NULL
for a missing Games row, and `NULL != 3` makes the loop skip the game. -/
def boxFinalPrecond (db : DB) (gid : String) : Bool :=
  let playerCount := (db.playerBox.filter (fun r => r.gameId == gid)).length
  let teamCount := (db.teamBox.filter (fun t => t == gid)).length
  let statusIs3 : Bool :=
    match db.games gid with
    | some r => r.status == 3
    | none => false
  if playerCount < 16 || teamCount ≠ 2 || !statusIs3 then false
  else
    let rows := db.playerBox.filter (fun r => r.gameId == gid && r.min.isSome)
    let teams := (rows.map (fun r => r.teamId)).dedup
    let teamMinutes :=
      teams.map (fun t => sumDec (rows.filterMap
        (fun r => if r.teamId == t then r.min else none)))
    decide (teamMinutes.length = 2) &&
      teamMinutes.all (fun m => Dec.le (Dec.ofInt 239) m)

/-- `_mark_boxscore_games_finalized`: passing games get
`UPDATE Games SET boxscore_data_finalized = 1`. -/
def markBoxscoreGamesFinalized (db : DB) (gameIds : List String) : DB × List String :=
  gameIds.foldl
    (markStep boxFinalPrecond (fun r => { r with boxscoreDataFinalized := true }))
    (db, [])

/-! ### The `pre_game_data_finalized` write of `update_pre_game_data`
(lines 918-945) -/

/-- One entry of `prior_states_dict`: the lists of prior states that were
needed but could not be loaded, per side. -/
structure PriorStates where
  missingHome : List String := []
  missingAway : List String := []
  deriving Repr, DecidableEq

/-- `pre_game_data_finalized = int(has_no_missing_home and
has_no_missing_away)`, written for every game of the chunk via
`UPDATE Games SET pre_game_data_finalized = ?` — the derived boolean is
assigned, not or-ed in. -/
def updatePreGameFlags (db : DB) (priorStates : List (String × PriorStates)) : DB :=
  priorStates.foldl
    (fun d p =>
      updateGame d p.1 (fun r =>
        { r with preGameDataFinalized :=
            p.2.missingHome.isEmpty && p.2.missingAway.isEmpty }))
    db

/-! ### Staleness selection predicates -/

/-- `ts < cutoff` with SQL NULL semantics (`NULL < x` is not true). -/
def tsLt (t : Option Int) (cutoff : Int) : Bool :=
  match t with
  | some v => v < cutoff
  | none => false

/-- The WHERE clause of `get_games_needing_pbp_update` (lines 528-555),
deciding whether the row `g` is selected. -/
def needsPbpUpdate (season : String) (now : Int) (db : DB) (g : GameRow) : Bool :=
  g.season == season &&
  (g.seasonType == "Regular Season" || g.seasonType == "Post Season") &&
  ((g.status == 2 && (g.pbpLastFetchedAt.isNone || tsLt g.pbpLastFetchedAt (now - 300)))
   ||
   (g.status == 3 && !g.gameDataFinalized && g.pbpLastFetchedAt.isSome &&
     tsLt g.pbpLastFetchedAt (now - 300))
   ||
   (g.status == 3 && !g.gameDataFinalized &&
     !(db.pbpLogs.any (fun r => r.gameId == g.gameId))))

/-- The WHERE clause of `get_games_needing_boxscores` (lines 1054-1099):
the timestamp-based query when the `boxscore_last_fetched_at` column
exists, otherwise the fallback query. -/
def needsBoxscoreUpdate (season : String) (now : Int) (hasTsColumn : Bool)
    (db : DB) (g : GameRow) : Bool :=
  if hasTsColumn then
    g.season == season &&
    (g.seasonType == "Regular Season" || g.seasonType == "Post Season") &&
    ((g.status == 2 &&
       (g.boxscoreLastFetchedAt.isNone || tsLt g.boxscoreLastFetchedAt (now - 300)))
     ||
     (g.status == 3 && !g.boxscoreDataFinalized && g.boxscoreLastFetchedAt.isSome &&
       tsLt g.boxscoreLastFetchedAt (now - 300))
     ||
     (g.status == 3 && !g.boxscoreDataFinalized &&
       !(db.playerBox.any (fun r => r.gameId == g.gameId))))
  else
    g.season == season &&
    (g.seasonType == "Regular Season" || g.seasonType == "Post Season") &&
    (g.status == 2 || g.status == 3) &&
    !g.boxscoreDataFinalized &&
    !(db.playerBox.any (fun r => r.gameId == g.gameId))

/-! ### `PbPValidator.validate` (validators.py 702-857) -/

inductive Severity where
  | critical
  | warning
  | info
  deriving Repr, DecidableEq

structure ValidationIssue where
  checkId : String
  severity : Severity
  message : String
  count : Nat
  sampleData : List String
  fixable : Bool
  deriving Repr, DecidableEq

structure ValidationResult where
  stageName : String
  totalChecked : Nat
  issues : List ValidationIssue
  deriving Repr, DecidableEq

/-- Decimal rendering of a natural number (fuel-based so it kernel-reduces;
the fuel `n + 1` always suffices). -/
def natToStrAux : Nat → Nat → List Char
  | 0, _ => []
  | fuel + 1, n =>
    if n < 10 then [Char.ofNat (48 + n)]
    else natToStrAux fuel (n / 10) ++ [Char.ofNat (48 + n % 10)]

def natToStr (n : Nat) : String := String.mk (natToStrAux (n + 1) n)

def intToStr (n : Int) : String :=
  if n < 0 then "-" ++ natToStr n.natAbs else natToStr n.natAbs

/-- Check 1: completed games missing PBP. -/
def pbpMissingList (batch : List String) (db : DB) : List String :=
  batch.filter (fun gid =>
    match db.games gid with
    | some g => g.status == 3 && !(db.pbpLogs.any (fun r => r.gameId == gid))
    | none => false)

/-- Check 2: completed games with fewer than 200 plays. -/
def pbpLowPlayList (batch : List String) (db : DB) : List String :=
  ((db.pbpLogs.map (fun r => r.gameId)).dedup.filter
    (fun gid =>
      gid ∈ batch &&
      (match db.games gid with
       | some g => g.status == 3
       | none => false) &&
      decide ((db.pbpLogs.filter (fun r => r.gameId == gid)).length < 200))).map
    (fun gid =>
      gid ++ " (" ++
        natToStr (db.pbpLogs.filter (fun r => r.gameId == gid)).length ++ " plays)")

/-- Check 3: in-progress games whose PBP was fetched over 20 minutes ago. -/
def pbpStaleList (batch : List String) (now : Int) (db : DB) : List String :=
  (batch.filter (fun gid =>
    match db.games gid with
    | some g => g.status == 2 && g.pbpLastFetchedAt.isSome &&
        tsLt g.pbpLastFetchedAt (now - 1200)
    | none => false)).map
    (fun gid =>
      gid ++ " (" ++
        intToStr (((now - (match db.games gid with
          | some g => g.pbpLastFetchedAt.getD 0
          | none => 0))).tdiv 60) ++ " min ago)")

/-- Check 4: games with PBP but no final GameState. -/
def pbpNoFinalList (batch : List String) (db : DB) : List String :=
  (db.pbpLogs.map (fun r => r.gameId)).dedup.filter
    (fun gid =>
      gid ∈ batch &&
      !(db.gameStates.any (fun gs => gs.gameId == gid && gs.isFinalState)))

/-- The PbP rows belonging to games of the batch. -/
def pbpBatchRows (batch : List String) (db : DB) : List PbpRow :=
  db.pbpLogs.filter (fun r => r.gameId ∈ batch)

/-- Check 5: the `(game_id, play_id)` groups with more than one row. -/
def pbpDupKeys (batch : List String) (db : DB) : List (String × Int) :=
  ((pbpBatchRows batch db).map (fun r => (r.gameId, r.playId))).dedup.filter
    (fun k => decide (1 < ((pbpBatchRows batch db).filter
      (fun r => r.gameId == k.1 && r.playId == k.2)).length))

/-- The formatted sample entries of check 5. -/
def pbpDuplicatesList (batch : List String) (db : DB) : List String :=
  (pbpDupKeys batch db).map (fun k =>
    k.1 ++ " (play_id " ++ intToStr k.2 ++ " x" ++
      natToStr ((pbpBatchRows batch db).filter
        (fun r => r.gameId == k.1 && r.playId == k.2)).length ++ ")")

/-- `PbPValidator().validate(game_ids, cursor)`.  SQL result-set ordering
of the unordered GROUP BY / filter queries is modelled as first-appearance
order; it only affects the `sample_data` strings, never an issue's
identity, severity or count. -/
def pbpValidate (batch : List String) (now : Int) (db : DB) : ValidationResult :=
  if batch.isEmpty then ⟨"PBP", batch.length, []⟩
  else
    let missingPbp := pbpMissingList batch db
    let lowPlayCount := pbpLowPlayList batch db
    let staleInprogress := pbpStaleList batch now db
    let noFinalState := pbpNoFinalList batch db
    let duplicates := pbpDuplicatesList batch db
    let issues : List ValidationIssue :=
      (if missingPbp.isEmpty then [] else
        [⟨"MISSING_PBP", Severity.critical, "Completed games without PBP data",
          missingPbp.length, missingPbp.take 5, true⟩]) ++
      (if lowPlayCount.isEmpty then [] else
        [⟨"LOW_PLAY_COUNT", Severity.warning,
          "Games with <200 plays (possible incomplete data)",
          lowPlayCount.length, lowPlayCount.take 5, true⟩]) ++
      (if staleInprogress.isEmpty then [] else
        [⟨"STALE_INPROGRESS_PBP", Severity.warning,
          "In-progress games with PBP >20 min old",
          staleInprogress.length, staleInprogress.take 5, true⟩]) ++
      (if noFinalState.isEmpty then [] else
        [⟨"NO_FINAL_STATE", Severity.warning,
          "Games with PBP but no final GameState",
          noFinalState.length, noFinalState.take 5, true⟩]) ++
      (if duplicates.isEmpty then [] else
        [⟨"DUPLICATE_PLAYS", Severity.critical, "Duplicate play_ids detected",
          duplicates.length, duplicates.take 5, true⟩])
    ⟨"PBP", batch.length, issues⟩

/-! ### `save_game_states` (game_states.py 242-329) -/

/-- The tuple appended to `data_to_insert` for one state. -/
def gsRowOfState (gid : String) (s : GameState) : GSRow :=
  ⟨gid, s.play_id, s.game_date, s.home, s.away, s.clock, s.period,
   s.home_score, s.away_score, s.total, s.home_margin, s.is_final_state,
   s.players_data⟩

/-- One game's committed transaction:
`DELETE FROM GameStates WHERE game_id = ?`, the `executemany` INSERT, and
`UPDATE Games SET gamestates_last_created_at = datetime('now')`. -/
def saveOneGame (db : DB) (now : Int) (gid : String) (states : List GameState) : DB :=
  let afterDelete :=
    { db with gameStates := db.gameStates.filter (fun r => !(r.gameId == gid)) }
  let afterInsert :=
    { afterDelete with
        gameStates := afterDelete.gameStates ++ states.map (gsRowOfState gid) }
  updateGame afterInsert gid (fun r => { r with gamestatesLastCreatedAt := some now })

/-- `save_game_states(game_states)`.  `fails gid` is the oracle for "some
statement of this game's transaction raises"; the `except` branch then
rolls the connection back to its pre-`BEGIN` state, logs, and sets
`overall_success = False`.  Games with an empty state list are skipped
before `BEGIN`. -/
def saveStep (fails : String → Bool) (now : Int) (acc : DB × Bool)
    (p : String × List GameState) : DB × Bool :=
  if p.2.isEmpty then acc
  else if fails p.1 then (acc.1, false)
  else (saveOneGame acc.1 now p.1 p.2, acc.2)

def saveGameStates (fails : String → Bool) (now : Int)
    (gameStates : List (String × List GameState)) (db : DB) : DB × Bool :=
  gameStates.foldl (saveStep fails now) (db, true)

/-! ### Helper lemmas about the finalization folds -/

theorem updateGame_games (db : DB) (gid : String) (f : GameRow → GameRow)
    (x : String) :
    (updateGame db gid f).games x =
      if x = gid then (db.games x).map f else db.games x := rfl

theorem markFold_games_eq (precond : DB → String → Bool) (set : GameRow → GameRow)
    (hpre : ∀ (d : DB) (g x : String), precond (updateGame d g set) x = precond d x)
    (hidem : ∀ r, set (set r) = set r) (gids : List String) :
    ∀ (acc : DB × List String) (gid : String),
      ((gids.foldl (markStep precond set) acc).1).games gid =
        if gid ∈ gids ∧ precond acc.1 gid = true then
          (acc.1.games gid).map set
        else acc.1.games gid := by
  induction gids with
  | nil => intro acc gid; simp
  | cons g gs ih =>
    intro acc gid
    rw [List.foldl_cons, ih]
    by_cases hp : precond acc.1 g = true
    · have hstep : markStep precond set acc g =
          (updateGame acc.1 g set, acc.2 ++ [g]) := by
        simp [markStep, hp]
      rw [hstep]
      by_cases hgg : gid = g
      · subst hgg
        simp only [hpre, updateGame_games, if_pos rfl, hp]
        by_cases hmem : gid ∈ gs <;>
            simp [hmem, Option.map_map] <;>
          cases acc.1.games gid <;> simp [Function.comp, hidem]
      · simp only [hpre, updateGame_games, if_neg hgg]
        by_cases hmem : gid ∈ gs <;> simp [List.mem_cons, hmem, hgg]
    · have hstep : markStep precond set acc g = acc := by
        simp [markStep, hp]
      rw [hstep]
      by_cases hgg : gid = g
      · subst hgg
        simp [List.mem_cons, hp]
      · simp [List.mem_cons, hgg]

theorem pbpFinalPrecond_updateGame (d : DB) (g : String) (f : GameRow → GameRow)
    (x : String) : pbpFinalPrecond (updateGame d g f) x = pbpFinalPrecond d x := rfl

theorem boxFinalPrecond_updateGame (d : DB) (g : String) (f : GameRow → GameRow)
    (hstatus : ∀ r, (f r).status = r.status) (x : String) :
    boxFinalPrecond (updateGame d g f) x = boxFinalPrecond d x := by
  unfold boxFinalPrecond
  have hgames : (match (updateGame d g f).games x with
      | some r => r.status == 3
      | none => false) =
      (match d.games x with
      | some r => r.status == 3
      | none => false) := by
    rw [updateGame_games]
    by_cases hxg : x = g
    · subst hxg
      simp only [if_pos rfl]
      cases d.games x with
      | none => simp
      | some r => simp [hstatus]
    · simp [hxg]
  simp only [updateGame] at *
  rw [hgames]

theorem markPbp_games_eq (db : DB) (gids : List String) (gid : String) :
    ((markPbpGamesFinalized db gids).1).games gid =
      if gid ∈ gids ∧ pbpFinalPrecond db gid = true then
        (db.games gid).map (fun r => { r with gameDataFinalized := true })
      else db.games gid :=
  markFold_games_eq pbpFinalPrecond
    (fun r => { r with gameDataFinalized := true })
    (fun d g x => rfl) (fun r => rfl) gids (db, []) gid

theorem markBox_games_eq (db : DB) (gids : List String) (gid : String) :
    ((markBoxscoreGamesFinalized db gids).1).games gid =
      if gid ∈ gids ∧ boxFinalPrecond db gid = true then
        (db.games gid).map (fun r => { r with boxscoreDataFinalized := true })
      else db.games gid :=
  markFold_games_eq boxFinalPrecond
    (fun r => { r with boxscoreDataFinalized := true })
    (fun d g x => boxFinalPrecond_updateGame d g
      (fun r => { r with boxscoreDataFinalized := true }) (fun r => rfl) x)
    (fun r => rfl) gids (db, []) gid

theorem updatePreGameFlags_frame (entries : List (String × PriorStates))
    (d : DB) (gid : String) (h : gid ∉ entries.map Prod.fst) :
    (updatePreGameFlags d entries).games gid = d.games gid := by
  induction entries generalizing d with
  | nil => rfl
  | cons p rest ih =>
    simp only [List.map_cons, List.mem_cons, not_or] at h
    unfold updatePreGameFlags at ih ⊢
    rw [List.foldl_cons, ih _ h.2, updateGame_games, if_neg h.1]

theorem updatePreGameFlags_games_eq (entries : List (String × PriorStates))
    (d : DB) (gid : String) (ps : PriorStates)
    (hmem : (gid, ps) ∈ entries) (hnd : (entries.map Prod.fst).Nodup) :
    (updatePreGameFlags d entries).games gid =
      (d.games gid).map (fun r =>
        { r with preGameDataFinalized :=
            ps.missingHome.isEmpty && ps.missingAway.isEmpty }) := by
  induction entries generalizing d with
  | nil => cases hmem
  | cons p rest ih =>
    simp only [List.map_cons, List.nodup_cons] at hnd
    rcases List.mem_cons.mp hmem with heq | htail
    · subst heq
      have hnotin : gid ∉ rest.map Prod.fst := by
        simpa using hnd.1
      unfold updatePreGameFlags
      rw [List.foldl_cons]
      have := updatePreGameFlags_frame rest
        (updateGame d gid (fun r =>
          { r with preGameDataFinalized :=
              ps.missingHome.isEmpty && ps.missingAway.isEmpty })) gid hnotin
      unfold updatePreGameFlags at this
      rw [this, updateGame_games, if_pos rfl]
    · have hne : gid ≠ p.1 := by
        intro hcontra
        exact hnd.1 (hcontra ▸ (List.mem_map.mpr ⟨(gid, ps), htail, rfl⟩))
      unfold updatePreGameFlags
      rw [List.foldl_cons]
      have := ih
        (updateGame d p.1 (fun r =>
          { r with preGameDataFinalized :=
              p.2.missingHome.isEmpty && p.2.missingAway.isEmpty }))
        htail hnd.2
      unfold updatePreGameFlags at this
      rw [this, updateGame_games, if_neg hne]

/-! ### Concrete database fixtures -/

/-- A Final game whose finalization flags are already set. -/
def finalizedGameRow : GameRow :=
  { gameId := "0022300001", season := "2023-2024", seasonType := "Regular Season",
    status := 3, gameDataFinalized := true, boxscoreDataFinalized := true }

/-- A database with no play-by-play, box-score or game-state rows at all. -/
def c7db : DB := { games := fun _ => none }

/-- A database whose only game is `finalizedGameRow`, with no backing data. -/
def c4db : DB :=
  { games := fun g => if g = "0022300001" then some finalizedGameRow else none }

def c4entries : List (String × PriorStates) := [("0022300001", ⟨["0022200001"], []⟩)]

/-- A persisted GameStates row marked final. -/
def c5gsRow (pid : Int) : GSRow :=
  ⟨"0022300001", pid, "2024-01-15", "AAA", "BBB", "PT00M00.00S", 4, 100, 90, 190,
   10, true, {}⟩

/-- A database where game `0022300001` has one PbP row and TWO GameStates
rows with `is_final_state = 1`, and its flag still 0. -/
def c5db : DB :=
  { games := fun g =>
      if g = "0022300001" then
        some { gameId := "0022300001", season := "2023-2024",
               seasonType := "Regular Season", status := 3 }
      else none,
    pbpLogs := [⟨"0022300001", 1⟩],
    gameStates := [c5gsRow 500, c5gsRow 501] }

/-! ### Claim C7 -/

/-- C7, counterexample: a Final game with `game_data_finalized = 1` whose
`PbP_Logs` table is empty is NOT selected by the WHERE clause of
`get_games_needing_pbp_update`, although the claim's decision row
(`Final`, flag = 1 → fetch iff dependent table empty) requires it to be. -/
theorem c7_counterexample :
    finalizedGameRow.status = 3 ∧ finalizedGameRow.gameDataFinalized = true ∧
    (c7db.pbpLogs.any fun r => r.gameId == finalizedGameRow.gameId) = false ∧
    needsPbpUpdate "2023-2024" 1000 c7db finalizedGameRow = false := by
  decide

/-- C7, amended: a game whose status is Final and whose category
finalization flag equals 1 is never selected by the per-category
update-selection query, regardless of whether the dependent table
(`PbP_Logs` / `PlayerBox`) is empty; the empty-table defensive-backfill
branch applies only to games whose flag is 0. -/
theorem c7_finalized_never_selected (season : String) (now : Int) (hasTs : Bool)
    (db : DB) (g : GameRow) (h3 : g.status = 3) :
    (g.gameDataFinalized = true → needsPbpUpdate season now db g = false) ∧
    (g.boxscoreDataFinalized = true →
      needsBoxscoreUpdate season now hasTs db g = false) := by
  constructor
  · intro hflag
    simp [needsPbpUpdate, h3, hflag]
  · intro hflag
    cases hasTs <;> simp [needsBoxscoreUpdate, h3, hflag]

/-- C7, witness for `c7_finalized_never_selected` at a concrete database. -/
theorem c7_finalized_never_selected_witness :
    needsPbpUpdate "2023-2024" 1000 c7db finalizedGameRow = false ∧
    needsBoxscoreUpdate "2023-2024" 1000 true c7db finalizedGameRow = false :=
  ⟨(c7_finalized_never_selected "2023-2024" 1000 true c7db finalizedGameRow rfl).1
      rfl,
   (c7_finalized_never_selected "2023-2024" 1000 true c7db finalizedGameRow rfl).2
      rfl⟩

/-! ### Claim C4 -/

/-- C4, counterexample: `_mark_pbp_games_finalized` run on a game whose
`game_data_finalized` flag is 1 but whose backing data is gone (no PbP
rows, no GameStates rows) leaves the flag at 1 — the pass does NOT assign
the recomputed boolean, contradicting the claim that a stale flag flips
back to `False`. -/
theorem c4_counterexample :
    pbpFinalPrecond c4db "0022300001" = false ∧
    ((markPbpGamesFinalized c4db ["0022300001"]).1.games "0022300001").map
      (fun r => r.gameDataFinalized) = some true := by
  decide

/-- C4, amended: only `pre_game_data_finalized` is recomputed and assigned
on every pass (`flag := derived boolean`, so it can flip back to `False`);
`game_data_finalized` and `boxscore_data_finalized` are set-only — a pass
computes `flag := old flag OR precondition`, so a flag that is already
`True` survives even when its precondition no longer holds. -/
theorem c4_flag_recompute_amended (db : DB) (gids : List String)
    (entries : List (String × PriorStates)) (gid : String) (ps : PriorStates)
    (hmem : gid ∈ gids) (hentry : (gid, ps) ∈ entries)
    (hnd : (entries.map Prod.fst).Nodup) :
    ((markPbpGamesFinalized db gids).1.games gid).map (fun r => r.gameDataFinalized)
        = (db.games gid).map
            (fun r => r.gameDataFinalized || pbpFinalPrecond db gid) ∧
    ((markBoxscoreGamesFinalized db gids).1.games gid).map
        (fun r => r.boxscoreDataFinalized)
        = (db.games gid).map
            (fun r => r.boxscoreDataFinalized || boxFinalPrecond db gid) ∧
    ((updatePreGameFlags db entries).games gid).map
        (fun r => r.preGameDataFinalized)
        = (db.games gid).map
            (fun _ => ps.missingHome.isEmpty && ps.missingAway.isEmpty) := by
  refine ⟨?_, ?_, ?_⟩
  · rw [markPbp_games_eq]
    by_cases hp : pbpFinalPrecond db gid = true
    · rw [if_pos ⟨hmem, hp⟩]
      cases db.games gid <;> simp [hp]
    · rw [if_neg (fun h => hp h.2)]
      cases db.games gid <;> simp [hp]
  · rw [markBox_games_eq]
    by_cases hp : boxFinalPrecond db gid = true
    · rw [if_pos ⟨hmem, hp⟩]
      cases db.games gid <;> simp [hp]
    · rw [if_neg (fun h => hp h.2)]
      cases db.games gid <;> simp [hp]
  · rw [updatePreGameFlags_games_eq entries db gid ps hentry hnd]
    cases db.games gid <;> simp

/-- C4, witness for `c4_flag_recompute_amended` at a concrete database. -/
theorem c4_flag_recompute_witness :
    ((markPbpGamesFinalized c4db ["0022300001"]).1.games "0022300001").map
      (fun r => r.gameDataFinalized)
      = (c4db.games "0022300001").map
          (fun r => r.gameDataFinalized || pbpFinalPrecond c4db "0022300001") :=
  (c4_flag_recompute_amended c4db ["0022300001"] c4entries "0022300001"
    ⟨["0022200001"], []⟩ (by decide) (by decide) (by decide)).1

/-! ### Claim C5 -/

/-- C5, counterexample: with TWO persisted `is_final_state = 1` rows for
the game, `_mark_pbp_games_finalized` still sets `game_data_finalized`
to 1, contradicting the claim that the flag is set only when EXACTLY one
such row exists. -/
theorem c5_counterexample :
    (c5db.gameStates.filter
      (fun r => r.gameId == "0022300001" && r.isFinalState)).length = 2 ∧
    ((markPbpGamesFinalized c5db ["0022300001"]).1.games "0022300001").map
      (fun r => r.gameDataFinalized) = some true := by
  decide

/-- C5, amended: `_mark_pbp_games_finalized` sets `game_data_finalized` to
`True` only if at least one raw play-by-play row exists and at least one
persisted GameState row with `is_final_state = True` exists (hence at
least one GameState row exists); the count of final-state rows is only
required to be positive, not exactly one. -/
theorem c5_game_data_finalized_amended (db : DB) (gids : List String) (gid : String)
    (hbefore : (db.games gid).map (fun r => r.gameDataFinalized) = some false)
    (hafter : ((markPbpGamesFinalized db gids).1.games gid).map
        (fun r => r.gameDataFinalized) = some true) :
    0 < (db.pbpLogs.filter (fun r => r.gameId == gid)).length ∧
    0 < (db.gameStates.filter
          (fun r => r.gameId == gid && r.isFinalState)).length ∧
    0 < (db.gameStates.filter (fun r => r.gameId == gid)).length := by
  rw [markPbp_games_eq] at hafter
  by_cases hcond : gid ∈ gids ∧ pbpFinalPrecond db gid = true
  · have hp := hcond.2
    unfold pbpFinalPrecond at hp
    simp only [Bool.and_eq_true, decide_eq_true_eq] at hp
    refine ⟨hp.1, hp.2, ?_⟩
    have hsub :
        (db.gameStates.filter (fun r => r.gameId == gid && r.isFinalState)).length
          ≤ (db.gameStates.filter (fun r => r.gameId == gid)).length := by
      have hmono : ∀ r : GSRow, (r.gameId == gid && r.isFinalState) = true →
          (r.gameId == gid) = true := by
        intro r h
        exact (Bool.and_eq_true _ _ ▸ h).1
      simpa [List.countP_eq_length_filter] using
        List.countP_mono_left (l := db.gameStates) fun r _ => hmono r
    exact lt_of_lt_of_le hp.2 hsub
  · rw [if_neg hcond, hbefore] at hafter
    cases hafter

/-- C5, witness for `c5_game_data_finalized_amended` at a concrete
database. -/
theorem c5_game_data_finalized_witness :
    0 < (c5db.pbpLogs.filter (fun r => r.gameId == "0022300001")).length ∧
    0 < (c5db.gameStates.filter
          (fun r => r.gameId == "0022300001" && r.isFinalState)).length ∧
    0 < (c5db.gameStates.filter (fun r => r.gameId == "0022300001")).length :=
  c5_game_data_finalized_amended c5db ["0022300001"] "0022300001"
    (by decide) (by decide)

/-! ### Helper lemmas about `save_game_states` -/

/-- The persisted GameStates rows of one game:
`SELECT * FROM GameStates WHERE game_id = gid`. -/
def rowsFor (db : DB) (gid : String) : List GSRow :=
  db.gameStates.filter (fun r => r.gameId == gid)

theorem rowsFor_saveOneGame_self (db : DB) (now : Int) (gid : String)
    (states : List GameState) :
    rowsFor (saveOneGame db now gid states) gid = states.map (gsRowOfState gid) := by
  unfold rowsFor saveOneGame updateGame
  simp only [List.filter_append]
  rw [List.filter_filter]
  have h1 : db.gameStates.filter
      (fun r => (r.gameId == gid) && !(r.gameId == gid)) = [] := by
    apply List.filter_eq_nil_iff.mpr
    intro r _
    cases h : r.gameId == gid <;> simp [h]
  have h2 : (states.map (gsRowOfState gid)).filter (fun r => r.gameId == gid)
      = states.map (gsRowOfState gid) := by
    apply List.filter_eq_self.mpr
    intro r hr
    rcases List.mem_map.mp hr with ⟨s, _, rfl⟩
    simp [gsRowOfState]
  rw [h1, h2, List.nil_append]

theorem rowsFor_saveOneGame_other (db : DB) (now : Int) (g gid : String)
    (states : List GameState) (h : gid ≠ g) :
    rowsFor (saveOneGame db now g states) gid = rowsFor db gid := by
  unfold rowsFor saveOneGame updateGame
  simp only [List.filter_append]
  rw [List.filter_filter]
  have h1 : db.gameStates.filter (fun r => (r.gameId == gid) && !(r.gameId == g))
      = db.gameStates.filter (fun r => r.gameId == gid) := by
    apply List.filter_congr
    intro r _
    cases hq : r.gameId == gid
    · simp
    · have : r.gameId = gid := by simpa using hq
      have : (r.gameId == g) = false := by
        simp [this, h]
      simp [hq, this]
  have h2 : (states.map (gsRowOfState g)).filter (fun r => r.gameId == gid)
      = [] := by
    apply List.filter_eq_nil_iff.mpr
    intro r hr
    rcases List.mem_map.mp hr with ⟨s, _, rfl⟩
    simp [gsRowOfState, Ne.symm h]
  rw [h1, h2, List.append_nil]

theorem games_saveOneGame (db : DB) (now : Int) (g gid : String)
    (states : List GameState) (h : gid ≠ g) :
    (saveOneGame db now g states).games gid = db.games gid := by
  unfold saveOneGame
  rw [updateGame_games, if_neg h]

/-- The overall return value: `True` iff no non-empty game failed. -/
theorem saveFold_snd (fails : String → Bool) (now : Int)
    (l : List (String × List GameState)) :
    ∀ (db : DB) (b : Bool),
      (l.foldl (saveStep fails now) (db, b)).2
        = (b && l.all (fun p => p.2.isEmpty || !fails p.1)) := by
  induction l with
  | nil => intro db b; simp
  | cons q rest ih =>
    intro db b
    rw [List.foldl_cons]
    by_cases hq : q.2.isEmpty
    · have : saveStep fails now (db, b) q = (db, b) := by
        simp [saveStep, hq]
      rw [this, ih, List.all_cons, hq]
      simp
    · by_cases hf : fails q.1 = true
      · have : saveStep fails now (db, b) q = (db, false) := by
          simp [saveStep, hq, hf]
        rw [this, ih, List.all_cons]
        simp [hq, hf]
      · have : saveStep fails now (db, b) q = (saveOneGame db now q.1 q.2, b) := by
          simp [saveStep, hq, hf]
        rw [this, ih, List.all_cons]
        simp [hq, hf]

/-- Frame: a game id not in the batch keeps its rows and its Games row. -/
theorem saveFold_frame (fails : String → Bool) (now : Int)
    (l : List (String × List GameState)) :
    ∀ (db : DB) (b : Bool) (gid : String), gid ∉ l.map Prod.fst →
      rowsFor ((l.foldl (saveStep fails now) (db, b)).1) gid = rowsFor db gid ∧
      ((l.foldl (saveStep fails now) (db, b)).1).games gid = db.games gid := by
  induction l with
  | nil => intro db b gid _; exact ⟨rfl, rfl⟩
  | cons q rest ih =>
    intro db b gid hnotin
    simp only [List.map_cons, List.mem_cons, not_or] at hnotin
    rw [List.foldl_cons]
    by_cases hq : q.2.isEmpty
    · have : saveStep fails now (db, b) q = (db, b) := by simp [saveStep, hq]
      rw [this]
      exact ih db b gid hnotin.2
    · by_cases hf : fails q.1 = true
      · have : saveStep fails now (db, b) q = (db, false) := by
          simp [saveStep, hq, hf]
        rw [this]
        exact ih db false gid hnotin.2
      · have : saveStep fails now (db, b) q = (saveOneGame db now q.1 q.2, b) := by
          simp [saveStep, hq, hf]
        rw [this]
        have hrest := ih (saveOneGame db now q.1 q.2) b gid hnotin.2
        exact ⟨hrest.1.trans
            (rowsFor_saveOneGame_other db now q.1 gid q.2 hnotin.1),
          hrest.2.trans (games_saveOneGame db now q.1 gid q.2 hnotin.1)⟩

/-- Per-game outcome of the batch write, for games in the batch. -/
theorem saveFold_member (fails : String → Bool) (now : Int)
    (l : List (String × List GameState)) :
    ∀ (db : DB) (b : Bool) (p : String × List GameState),
      (l.map Prod.fst).Nodup → p ∈ l →
      ((fails p.1 = true ∨ p.2 = []) →
        rowsFor ((l.foldl (saveStep fails now) (db, b)).1) p.1 = rowsFor db p.1 ∧
        ((l.foldl (saveStep fails now) (db, b)).1).games p.1 = db.games p.1) ∧
      (fails p.1 = false → p.2 ≠ [] →
        rowsFor ((l.foldl (saveStep fails now) (db, b)).1) p.1
          = p.2.map (gsRowOfState p.1)) := by
  induction l with
  | nil => intro db b p _ hp; cases hp
  | cons q rest ih =>
    intro db b p hnd hp
    simp only [List.map_cons, List.nodup_cons] at hnd
    rw [List.foldl_cons]
    rcases List.mem_cons.mp hp with rfl | htail
    · -- p is the head; afterwards its id is untouched (Nodup)
      have hnotin : p.1 ∉ rest.map Prod.fst := hnd.1
      constructor
      · rintro (hf | hempty)
        · by_cases hq : p.2.isEmpty
          · have : saveStep fails now (db, b) p = (db, b) := by
              simp [saveStep, hq]
            rw [this]
            exact saveFold_frame fails now rest db b p.1 hnotin
          · have : saveStep fails now (db, b) p = (db, false) := by
              simp [saveStep, hq, hf]
            rw [this]
            exact saveFold_frame fails now rest db false p.1 hnotin
        · have hq : p.2.isEmpty := by simp [hempty]
          have : saveStep fails now (db, b) p = (db, b) := by
            simp [saveStep, hq]
          rw [this]
          exact saveFold_frame fails now rest db b p.1 hnotin
      · intro hf hne
        have hq : ¬ p.2.isEmpty = true := by
          simpa [List.isEmpty_iff] using hne
        have : saveStep fails now (db, b) p = (saveOneGame db now p.1 p.2, b) := by
          simp [saveStep, hq, hf]
        rw [this]
        have hframe :=
          (saveFold_frame fails now rest (saveOneGame db now p.1 p.2) b p.1 hnotin).1
        rw [hframe]
        exact rowsFor_saveOneGame_self db now p.1 p.2
    · -- p is further down; the head's write does not touch p's id
      have hne : p.1 ≠ q.1 := by
        intro hcontra
        exact hnd.1 (hcontra ▸ List.mem_map.mpr ⟨p, htail, rfl⟩)
      by_cases hq : q.2.isEmpty
      · have : saveStep fails now (db, b) q = (db, b) := by simp [saveStep, hq]
        rw [this]
        exact ih db b p hnd.2 htail
      · by_cases hf : fails q.1 = true
        · have : saveStep fails now (db, b) q = (db, false) := by
            simp [saveStep, hq, hf]
          rw [this]
          exact ih db false p hnd.2 htail
        · have : saveStep fails now (db, b) q = (saveOneGame db now q.1 q.2, b) := by
            simp [saveStep, hq, hf]
          rw [this]
          have hihv := ih (saveOneGame db now q.1 q.2) b p hnd.2 htail
          have hro := rowsFor_saveOneGame_other db now q.1 p.1 q.2 hne
          have hgo := games_saveOneGame db now q.1 p.1 q.2 hne
          exact ⟨fun h => ⟨(hihv.1 h).1.trans hro, (hihv.1 h).2.trans hgo⟩,
            fun h1 h2 => hihv.2 h1 h2⟩

/-- A batch in which every game has an empty state list does nothing. -/
theorem saveFold_all_empty (fails : String → Bool) (now : Int)
    (l : List (String × List GameState)) :
    ∀ (acc : DB × Bool), l.all (fun p => p.2.isEmpty) →
      l.foldl (saveStep fails now) acc = acc := by
  induction l with
  | nil => intro acc _; rfl
  | cons q rest ih =>
    intro acc hall
    rw [List.all_cons, Bool.and_eq_true] at hall
    rw [List.foldl_cons]
    have : saveStep fails now acc q = acc := by simp [saveStep, hall.1]
    rw [this]
    exact ih acc hall.2

/-! ### Claim C6 -/

/-- C6: `save_game_states` returns `True` iff every game's (non-empty)
write succeeded; a failed game's transaction is rolled back, leaving its
previously persisted rows (and its Games row) unchanged; every succeeding
game's rows are fully replaced by the new states, whether it comes before
or after a failure in the batch. -/
theorem c6_save_transactional (fails : String → Bool) (now : Int)
    (gameStates : List (String × List GameState)) (db : DB)
    (hnd : (gameStates.map Prod.fst).Nodup) :
    ((saveGameStates fails now gameStates db).2
        = gameStates.all (fun p => p.2.isEmpty || !fails p.1)) ∧
    (∀ p ∈ gameStates, p.2 ≠ [] → fails p.1 = true →
        rowsFor (saveGameStates fails now gameStates db).1 p.1 = rowsFor db p.1 ∧
        ((saveGameStates fails now gameStates db).1).games p.1 = db.games p.1) ∧
    (∀ p ∈ gameStates, p.2 ≠ [] → fails p.1 = false →
        rowsFor (saveGameStates fails now gameStates db).1 p.1
          = p.2.map (gsRowOfState p.1)) := by
  refine ⟨?_, ?_, ?_⟩
  · simpa using saveFold_snd fails now gameStates db true
  · intro p hp _ hf
    exact (saveFold_member fails now gameStates db true p hnd hp).1 (Or.inl hf)
  · intro p hp hne hf
    exact (saveFold_member fails now gameStates db true p hnd hp).2 hf hne

/-- Fixtures for the `save_game_states` claims: game A already has a
persisted row and its new write fails; game B's write succeeds. -/
def c6stA : GameState :=
  ⟨"0022300001", 1, "2024-01-15", "AAA", "BBB", "PT12M00.00S", 1, 2, 0, 2, 2,
   false, {}⟩
def c6stB : GameState :=
  ⟨"0022300002", 7, "2024-01-15", "CCC", "DDD", "PT10M00.00S", 1, 0, 3, 3, -3,
   false, {}⟩
def c6db : DB := { games := fun _ => none, gameStates := [c5gsRow 500] }
def c6fails : String → Bool := fun g => g == "0022300001"
def c6batch : List (String × List GameState) :=
  [("0022300001", [c6stA]), ("0022300002", [c6stB])]

/-- C6, witness for `c6_save_transactional` at a concrete batch with one
failing and one succeeding game. -/
theorem c6_save_transactional_witness :
    ((saveGameStates c6fails 99 c6batch c6db).2
        = c6batch.all (fun p => p.2.isEmpty || !c6fails p.1)) ∧
    rowsFor (saveGameStates c6fails 99 c6batch c6db).1 "0022300001"
        = rowsFor c6db "0022300001" ∧
    rowsFor (saveGameStates c6fails 99 c6batch c6db).1 "0022300002"
        = [c6stB].map (gsRowOfState "0022300002") :=
  ⟨(c6_save_transactional c6fails 99 c6batch c6db (by decide)).1,
   ((c6_save_transactional c6fails 99 c6batch c6db (by decide)).2.1
      ("0022300001", [c6stA]) (by decide) (by decide) (by decide)).1,
   (c6_save_transactional c6fails 99 c6batch c6db (by decide)).2.2
      ("0022300002", [c6stB]) (by decide) (by decide) (by decide)⟩

/-! ### Claim C10 -/

/-- C10: a game whose state list is empty is skipped — no DELETE runs, so
its previously persisted rows and its Games row (in particular
`gamestates_last_created_at`) stay unchanged — and the skip does not
affect the return value: a batch of only empty-state games returns the
database unchanged together with `True`. -/
theorem c10_empty_states_skipped (fails : String → Bool) (now : Int)
    (gameStates : List (String × List GameState)) (db : DB) (gid : String)
    (hnd : (gameStates.map Prod.fst).Nodup)
    (hmem : (gid, ([] : List GameState)) ∈ gameStates) :
    rowsFor (saveGameStates fails now gameStates db).1 gid = rowsFor db gid ∧
    ((saveGameStates fails now gameStates db).1).games gid = db.games gid ∧
    (gameStates.all (fun p => p.2.isEmpty) →
      saveGameStates fails now gameStates db = (db, true)) := by
  have h := (saveFold_member fails now gameStates db true (gid, []) hnd hmem).1
    (Or.inr rfl)
  exact ⟨h.1, h.2, fun hall => saveFold_all_empty fails now gameStates (db, true) hall⟩

/-- C10, witness for `c10_empty_states_skipped` at a concrete batch. -/
theorem c10_empty_states_skipped_witness :
    rowsFor (saveGameStates c6fails 42 [("0022300001", [])] c6db).1 "0022300001"
        = rowsFor c6db "0022300001" ∧
    ((saveGameStates c6fails 42 [("0022300001", [])] c6db).1).games "0022300001"
        = c6db.games "0022300001" ∧
    ([("0022300001", ([] : List GameState))].all (fun p => p.2.isEmpty) →
      saveGameStates c6fails 42 [("0022300001", [])] c6db = (c6db, true)) :=
  c10_empty_states_skipped c6fails 42 [("0022300001", [])] c6db "0022300001"
    (by decide) (by decide)

/-! ### Helper lemmas for the duplicate-plays check -/

theorem pbpKeyCount (rows : List PbpRow) (k : String × Int) :
    (rows.filter (fun r => r.gameId == k.1 && r.playId == k.2)).length
      = List.count k (rows.map (fun r => (r.gameId, r.playId))) := by
  induction rows with
  | nil => rfl
  | cons r rest ih =>
    rw [List.map_cons, List.count_cons, List.filter_cons]
    by_cases h : ((r.gameId, r.playId) : String × Int) = k
    · have hb : (r.gameId == k.1 && r.playId == k.2) = true := by
        rcases k with ⟨kg, kp⟩
        rw [Prod.mk.injEq] at h
        simp [h.1, h.2]
      have hbk : (((r.gameId, r.playId) : String × Int) == k) = true := by
        simpa using h
      simp [hb, hbk, ih]
    · have hb : (r.gameId == k.1 && r.playId == k.2) = false := by
        rcases k with ⟨kg, kp⟩
        rw [Prod.mk.injEq] at h
        by_cases hg : r.gameId = kg <;> by_cases hp2 : r.playId = kp <;>
          simp_all
      have hbk : (((r.gameId, r.playId) : String × Int) == k) = false := by
        simpa using h
      simp [hb, hbk, ih]

theorem count_key_filter_bad (bad : PbpRow → Bool) (k : String × Int)
    (hk : ∀ r : PbpRow, bad r = true → ((r.gameId, r.playId) : String × Int) ≠ k) :
    ∀ rows : List PbpRow,
      List.count k ((rows.filter (fun r => !bad r)).map
          (fun r => (r.gameId, r.playId)))
        = List.count k (rows.map (fun r => (r.gameId, r.playId))) := by
  intro rows
  induction rows with
  | nil => rfl
  | cons r rest ih =>
    rw [List.map_cons, List.count_cons, List.filter_cons]
    by_cases hb : bad r = true
    · have hne : (((r.gameId, r.playId) : String × Int) == k) = false := by
        simpa using hk r hb
      simp [hb, hne, ih]
    · have hbf : bad r = false := by simpa using hb
      simp [hbf, ih, List.count_cons]

theorem nodup_count_le_one {α : Type} [BEq α] [LawfulBEq α] :
    ∀ {l : List α}, l.Nodup → ∀ a, List.count a l ≤ 1 := by
  intro l
  induction l with
  | nil => intro _ a; simp
  | cons x xs ih =>
    intro hnd a
    rcases List.nodup_cons.mp hnd with ⟨hx, hxs⟩
    rw [List.count_cons]
    by_cases hxa : (x == a) = true
    · have hnotmem : a ∉ xs := by
        have heq := eq_of_beq hxa
        exact heq ▸ hx
      have hz : List.count a xs = 0 := List.count_eq_zero.mpr hnotmem
      simp [hxa, hz]
    · have hxf : (x == a) = false := by simpa using hxa
      simp only [hxf, if_false, Nat.add_zero]
      exact ih hxs a

theorem filter_eq_singleton_of_nodup {α : Type} [DecidableEq α]
    (p : α → Bool) (a : α) :
    ∀ l : List α, l.Nodup → a ∈ l → (∀ x ∈ l, (p x = true ↔ x = a)) →
      l.filter p = [a] := by
  intro l
  induction l with
  | nil => intro _ ha _; cases ha
  | cons x xs ih =>
    intro hnd ha hp
    rw [List.filter_cons]
    rcases List.mem_cons.mp ha with rfl | hmem
    · rw [if_pos ((hp _ (List.mem_cons_self _ _)).mpr rfl)]
      have hxs : xs.filter p = [] := by
        apply List.filter_eq_nil_iff.mpr
        intro y hy hpy
        have heq : y = a := (hp y (List.mem_cons_of_mem _ hy)).mp hpy
        exact (List.nodup_cons.mp hnd).1 (heq ▸ hy)
      rw [hxs]
    · have hxa : x ≠ a := by
        intro hcontra
        exact (List.nodup_cons.mp hnd).1 (hcontra ▸ hmem)
      have hx : p x = false := by
        cases hpx : p x
        · rfl
        · exact absurd ((hp x (List.mem_cons_self _ _)).mp hpx) hxa
      rw [if_neg (by simp [hx])]
      exact ih (List.nodup_cons.mp hnd).2 hmem
        (fun y hy => hp y (List.mem_cons_of_mem _ hy))

/-! ### Claim C9 -/

/-- C9: when the persisted play-by-play rows of one game of the batch
contain exactly two rows sharing one `play_id` and every other ordering
key in the batch is unduplicated, `PbPValidator.validate` reports a
`DUPLICATE_PLAYS` issue with severity CRITICAL and count 1. -/
theorem c9_duplicate_plays (batch : List String) (now : Int) (db : DB)
    (gid : String) (pid : Int) (hmem : gid ∈ batch)
    (h2 : (db.pbpLogs.filter
        (fun r => r.gameId == gid && r.playId == pid)).length = 2)
    (h3 : (((pbpBatchRows batch db).filter
        (fun r => !(r.gameId == gid && r.playId == pid))).map
        (fun r => (r.gameId, r.playId))).Nodup) :
    ((pbpValidate batch now db).issues.filter
        (fun i => i.checkId == "DUPLICATE_PLAYS")).map
      (fun i => (i.severity, i.count)) = [(Severity.critical, 1)] := by
  have hbatchne : ¬ batch.isEmpty = true := by
    cases batch with
    | nil => cases hmem
    | cons b bs => simp
  -- the batch-filtered rows with the duplicated key are all key rows
  have hrows2 : ((pbpBatchRows batch db).filter
      (fun r => r.gameId == gid && r.playId == pid)).length = 2 := by
    unfold pbpBatchRows
    rw [List.filter_filter]
    rw [← h2]
    congr 1
    apply List.filter_congr
    intro r _
    cases hkey : (r.gameId == gid && r.playId == pid)
    · simp
    · have hg : r.gameId = gid := by
        have := (Bool.and_eq_true _ _).mp hkey
        simpa using this.1
      simp [hkey, hg, hmem]
  have hcount2 : List.count ((gid, pid) : String × Int)
      ((pbpBatchRows batch db).map (fun r => (r.gameId, r.playId))) = 2 := by
    rw [← pbpKeyCount]
    exact hrows2
  have hmemkey : ((gid, pid) : String × Int)
      ∈ (pbpBatchRows batch db).map (fun r => (r.gameId, r.playId)) := by
    rw [← List.count_pos_iff, hcount2]
    norm_num
  have hdupkeys : pbpDupKeys batch db = [(gid, pid)] := by
    unfold pbpDupKeys
    apply filter_eq_singleton_of_nodup
    · exact List.nodup_dedup _
    · exact List.mem_dedup.mpr hmemkey
    · intro k hk
      constructor
      · intro hpred
        by_contra hne
        rw [decide_eq_true_eq, pbpKeyCount] at hpred
        rw [← count_key_filter_bad
            (fun r => r.gameId == gid && r.playId == pid) k
            (fun r hr => by
              have hg : r.gameId = gid := by
                have := (Bool.and_eq_true _ _).mp hr
                simpa using this.1
              have hp2 : r.playId = pid := by
                have := (Bool.and_eq_true _ _).mp hr
                simpa using this.2
              rw [hg, hp2]
              exact fun hcontra => hne hcontra.symm)] at hpred
        have hle := nodup_count_le_one h3 k
        omega
      · rintro rfl
        rw [decide_eq_true_eq, hrows2]
        norm_num
  have hduplist : pbpDuplicatesList batch db
      = [gid ++ " (play_id " ++ intToStr pid ++ " x" ++
          natToStr ((pbpBatchRows batch db).filter
            (fun r => r.gameId == gid && r.playId == pid)).length ++ ")"] := by
    unfold pbpDuplicatesList
    rw [hdupkeys]
    rfl
  unfold pbpValidate
  rw [if_neg hbatchne]
  simp only [hduplist]
  by_cases e1 : (pbpMissingList batch db).isEmpty <;>
    by_cases e2 : (pbpLowPlayList batch db).isEmpty <;>
      by_cases e3 : (pbpStaleList batch now db).isEmpty <;>
        by_cases e4 : (pbpNoFinalList batch db).isEmpty <;>
          simp [e1, e2, e3, e4, hrows2, hduplist]

/-- A database whose game `0022300009` has exactly two PbP rows sharing
`play_id` 145 plus one unduplicated row. -/
def c9db : DB :=
  { games := fun _ => none,
    pbpLogs := [⟨"0022300009", 145⟩, ⟨"0022300009", 145⟩, ⟨"0022300009", 7⟩] }

/-- C9, witness for `c9_duplicate_plays` at a concrete database. -/
theorem c9_duplicate_plays_witness :
    ((pbpValidate ["0022300009"] 0 c9db).issues.filter
        (fun i => i.checkId == "DUPLICATE_PLAYS")).map
      (fun i => (i.severity, i.count)) = [(Severity.critical, 1)] :=
  c9_duplicate_plays ["0022300009"] 0 c9db "0022300009" 145
    (by decide) (by decide) (by decide)

/-! ### Structure lemmas for the two reduction branches -/

def dummyEvent : RawEvent := {}

def dummyState : GameState :=
  ⟨"", 0, "", "", "", "", 0, 0, 0, 0, 0, false, {}⟩

theorem runLive_cons_inv (gid gdate home away : String) (players : Players)
    (row : RawEvent) (rest : List RawEvent) (sts : List GameState)
    (h : runLive gid gdate home away players (row :: rest) = some sts) :
    ∃ pid hs asc tail,
      row.orderNumber = some pid ∧ liveScore row.scoreHome = some hs ∧
      liveScore row.scoreAway = some asc ∧
      runLive gid gdate home away (updatePlayersLive home players row) rest
        = some tail ∧
      sts = { game_id := gid, play_id := pid, game_date := gdate, home := home,
              away := away, clock := row.clock.getD "PT00M00.00S",
              period := row.period.getD 1, home_score := hs, away_score := asc,
              total := hs + asc, home_margin := hs - asc,
              is_final_state := (rest.isEmpty &&
                row.actionType == some "game" && row.subType == some "end"),
              players_data := updatePlayersLive home players row } :: tail := by
  simp only [runLive] at h
  cases hpid : row.orderNumber with
  | none =>
    simp only [hpid, Option.pure_def, Option.bind_eq_bind, Option.none_bind] at h
    exact Option.noConfusion h
  | some pid =>
    simp only [hpid, Option.pure_def, Option.bind_eq_bind, Option.some_bind] at h
    cases hhs : liveScore row.scoreHome with
    | none =>
      simp only [hhs, Option.none_bind] at h
      exact Option.noConfusion h
    | some hs =>
      simp only [hhs, Option.some_bind] at h
      cases has : liveScore row.scoreAway with
      | none =>
        simp only [has, Option.none_bind] at h
        exact Option.noConfusion h
      | some asc =>
        simp only [has, Option.some_bind] at h
        cases htail : runLive gid gdate home away
            (updatePlayersLive home players row) rest with
        | none =>
          simp only [htail, Option.none_bind] at h
          exact Option.noConfusion h
        | some tail =>
          simp only [htail, Option.some_bind, Option.some.injEq] at h
          exact ⟨pid, hs, asc, tail, rfl, rfl, rfl, rfl, h.symm⟩

theorem runStats_cons_inv (gid gdate home away : String) (players : Players)
    (curH curA : Int) (row : RawEvent) (rest : List RawEvent)
    (sts : List GameState)
    (h : runStats gid gdate home away players curH curA (row :: rest)
      = some sts) :
    ∃ curH' curA' pid tail,
      statsScore curH row.scoreHome = some curH' ∧
      statsScore curA row.scoreAway = some curA' ∧
      row.actionId = some pid ∧
      runStats gid gdate home away (updatePlayersStats home players row)
        curH' curA' rest = some tail ∧
      sts = { game_id := gid, play_id := pid, game_date := gdate, home := home,
              away := away, clock := row.clock.getD "PT00M00.00S",
              period := row.period.getD 1, home_score := curH',
              away_score := curA', total := curH' + curA',
              home_margin := curH' - curA',
              is_final_state := (rest.isEmpty &&
                row.actionType == some "game" && row.subType == some "end"),
              players_data := updatePlayersStats home players row } :: tail := by
  simp only [runStats] at h
  cases hch : statsScore curH row.scoreHome with
  | none =>
    simp only [hch, Option.pure_def, Option.bind_eq_bind, Option.none_bind] at h
    exact Option.noConfusion h
  | some curH' =>
    simp only [hch, Option.pure_def, Option.bind_eq_bind, Option.some_bind] at h
    cases hca : statsScore curA row.scoreAway with
    | none =>
      simp only [hca, Option.none_bind] at h
      exact Option.noConfusion h
    | some curA' =>
      simp only [hca, Option.some_bind] at h
      cases hpid : row.actionId with
      | none =>
        simp only [hpid, Option.none_bind] at h
        exact Option.noConfusion h
      | some pid =>
        simp only [hpid, Option.some_bind] at h
        cases htail : runStats gid gdate home away
            (updatePlayersStats home players row) curH' curA' rest with
        | none =>
          simp only [htail, Option.none_bind] at h
          exact Option.noConfusion h
        | some tail =>
          simp only [htail, Option.some_bind, Option.some.injEq] at h
          exact ⟨curH', curA', pid, tail, rfl, rfl, rfl, htail, h.symm⟩

/-- Everything the per-index claims need about the live branch: one state
per event, the final flag set exactly on the last event when it carries
the `game`/`end` marker, and each snapshot's scores parsed from its own
event (0 when absent) — no carry-forward. -/
theorem runLive_spec (gid gdate home away : String) :
    ∀ (logs : List RawEvent) (players : Players) (sts : List GameState),
      runLive gid gdate home away players logs = some sts →
      sts.length = logs.length ∧
      ∀ i, i < sts.length →
        ((sts.getD i dummyState).is_final_state =
          (decide (i = logs.length - 1) &&
            ((logs.getD i dummyEvent).actionType == some "game") &&
            ((logs.getD i dummyEvent).subType == some "end"))) ∧
        liveScore (logs.getD i dummyEvent).scoreHome
          = some ((sts.getD i dummyState).home_score) ∧
        liveScore (logs.getD i dummyEvent).scoreAway
          = some ((sts.getD i dummyState).away_score) := by
  intro logs
  induction logs with
  | nil =>
    intro players sts h
    simp only [runLive, Option.some.injEq] at h
    subst h
    exact ⟨rfl, fun i hi => absurd hi (by simp)⟩
  | cons row rest ih =>
    intro players sts h
    obtain ⟨pid, hs, asc, tail, hpid, hhs, has, htail, rfl⟩ :=
      runLive_cons_inv gid gdate home away players row rest sts h
    obtain ⟨hlen, hspec⟩ := ih _ tail htail
    refine ⟨by simp [hlen], ?_⟩
    intro i hi
    cases i with
    | zero =>
      refine ⟨?_, ?_, ?_⟩
      · simp only [List.getD_cons_zero]
        cases rest <;> simp
      · simpa only [List.getD_cons_zero] using hhs
      · simpa only [List.getD_cons_zero] using has
    | succ j =>
      have hj : j < tail.length := by
        simp only [List.length_cons] at hi
        omega
      obtain ⟨hfin, hsh, hsa⟩ := hspec j hj
      refine ⟨?_, ?_, ?_⟩
      · simp only [List.getD_cons_succ]
        rw [hfin]
        have hdec : decide (j + 1 = (row :: rest).length - 1)
            = decide (j = rest.length - 1) := by
          simp only [List.length_cons, Nat.add_sub_cancel]
          have hpos : 0 < rest.length := by omega
          exact decide_eq_decide.mpr (by omega)
        rw [hdec]
      · simpa only [List.getD_cons_succ] using hsh
      · simpa only [List.getD_cons_succ] using hsa

/-- Per-index facts about the stats branch: one state per event, the same
final-flag rule, the first snapshot's scores derived from the initial
running score 0, and each later snapshot's scores derived from the
previous snapshot's scores (carry-forward unless the event's score field
is truthy). -/
theorem runStats_spec (gid gdate home away : String) :
    ∀ (logs : List RawEvent) (players : Players) (curH curA : Int)
      (sts : List GameState),
      runStats gid gdate home away players curH curA logs = some sts →
      sts.length = logs.length ∧
      (∀ i, i < sts.length →
        ((sts.getD i dummyState).is_final_state =
          (decide (i = logs.length - 1) &&
            ((logs.getD i dummyEvent).actionType == some "game") &&
            ((logs.getD i dummyEvent).subType == some "end")))) ∧
      (0 < sts.length →
        statsScore curH (logs.getD 0 dummyEvent).scoreHome
          = some ((sts.getD 0 dummyState).home_score) ∧
        statsScore curA (logs.getD 0 dummyEvent).scoreAway
          = some ((sts.getD 0 dummyState).away_score)) ∧
      (∀ i, i + 1 < sts.length →
        statsScore ((sts.getD i dummyState).home_score)
            ((logs.getD (i + 1) dummyEvent).scoreHome)
          = some ((sts.getD (i + 1) dummyState).home_score) ∧
        statsScore ((sts.getD i dummyState).away_score)
            ((logs.getD (i + 1) dummyEvent).scoreAway)
          = some ((sts.getD (i + 1) dummyState).away_score)) := by
  intro logs
  induction logs with
  | nil =>
    intro players curH curA sts h
    simp only [runStats, Option.some.injEq] at h
    subst h
    refine ⟨rfl, fun i hi => absurd hi (by simp), fun h0 => absurd h0 (by simp),
      fun i hi => absurd hi (by simp)⟩
  | cons row rest ih =>
    intro players curH curA sts h
    obtain ⟨curH', curA', pid, tail, hch, hca, hpid, htail, rfl⟩ :=
      runStats_cons_inv gid gdate home away players curH curA row rest sts h
    obtain ⟨hlen, hfin, hfirst, hstep⟩ := ih _ curH' curA' tail htail
    refine ⟨by simp [hlen], ?_, ?_, ?_⟩
    · intro i hi
      cases i with
      | zero =>
        simp only [List.getD_cons_zero]
        cases rest <;> simp
      | succ j =>
        have hj : j < tail.length := by
          simp only [List.length_cons] at hi
          omega
        have hf := hfin j hj
        simp only [List.getD_cons_succ]
        rw [hf]
        have hdec : decide (j + 1 = (row :: rest).length - 1)
            = decide (j = rest.length - 1) := by
          simp only [List.length_cons, Nat.add_sub_cancel]
          have hpos : 0 < rest.length := by omega
          exact decide_eq_decide.mpr (by omega)
        rw [hdec]
    · intro _
      refine ⟨?_, ?_⟩
      · simpa only [List.getD_cons_zero] using hch
      · simpa only [List.getD_cons_zero] using hca
    · intro i hi
      cases i with
      | zero =>
        have h0 : 0 < tail.length := by
          simp only [List.length_cons] at hi
          omega
        have hf := hfirst h0
        exact ⟨by simpa only [List.getD_cons_succ, List.getD_cons_zero] using hf.1,
          by simpa only [List.getD_cons_succ, List.getD_cons_zero] using hf.2⟩
      | succ j =>
        have hj : j + 1 < tail.length := by
          simp only [List.length_cons] at hi
          omega
        have hf := hstep j hj
        exact ⟨by simpa only [List.getD_cons_succ] using hf.1,
          by simpa only [List.getD_cons_succ] using hf.2⟩

/-- At most one live-branch state is final: a set final flag forces the
remaining event list to be empty. -/
theorem runLive_count (gid gdate home away : String) :
    ∀ (logs : List RawEvent) (players : Players) (sts : List GameState),
      runLive gid gdate home away players logs = some sts →
      sts.countP (fun s => s.is_final_state) ≤ 1 := by
  intro logs
  induction logs with
  | nil =>
    intro players sts h
    simp only [runLive, Option.some.injEq] at h
    subst h
    simp
  | cons row rest ih =>
    intro players sts h
    obtain ⟨pid, hs, asc, tail, hpid, hhs, has, htail, rfl⟩ :=
      runLive_cons_inv gid gdate home away players row rest sts h
    rw [List.countP_cons]
    by_cases hfin : (rest.isEmpty && row.actionType == some "game" &&
        row.subType == some "end") = true
    · have hrest : rest = [] := by
        have h1 := ((Bool.and_eq_true _ _).mp hfin).1
        have h2 := ((Bool.and_eq_true _ _).mp h1).1
        exact List.isEmpty_iff.mp h2
      subst hrest
      simp only [runLive, Option.some.injEq] at htail
      subst htail
      split <;> simp
    · have hb : (rest.isEmpty && row.actionType == some "game" &&
          row.subType == some "end") = false := by simpa using hfin
      simpa [hb] using ih _ tail htail

/-- At most one stats-branch state is final. -/
theorem runStats_count (gid gdate home away : String) :
    ∀ (logs : List RawEvent) (players : Players) (curH curA : Int)
      (sts : List GameState),
      runStats gid gdate home away players curH curA logs = some sts →
      sts.countP (fun s => s.is_final_state) ≤ 1 := by
  intro logs
  induction logs with
  | nil =>
    intro players curH curA sts h
    simp only [runStats, Option.some.injEq] at h
    subst h
    simp
  | cons row rest ih =>
    intro players curH curA sts h
    obtain ⟨curH', curA', pid, tail, hch, hca, hpid, htail, rfl⟩ :=
      runStats_cons_inv gid gdate home away players curH curA row rest sts h
    rw [List.countP_cons]
    by_cases hfin : (rest.isEmpty && row.actionType == some "game" &&
        row.subType == some "end") = true
    · have hrest : rest = [] := by
        have h1 := ((Bool.and_eq_true _ _).mp hfin).1
        have h2 := ((Bool.and_eq_true _ _).mp h1).1
        exact List.isEmpty_iff.mp h2
      subst hrest
      simp only [runStats, Option.some.injEq] at htail
      subst htail
      split <;> simp
    · have hb : (rest.isEmpty && row.actionType == some "game" &&
          row.subType == some "end") = false := by simpa using hfin
      simpa [hb] using ih _ curH' curA' tail htail

/-! ### Embedded-score sequences (for the monotonicity analysis) -/

/-- The per-event parsed scores the live branch emits verbatim. -/
def liveEmbHome (logs : List RawEvent) : List Int :=
  logs.filterMap (fun e => liveScore e.scoreHome)

def liveEmbAway (logs : List RawEvent) : List Int :=
  logs.filterMap (fun e => liveScore e.scoreAway)

/-- The truthy embedded scores the stats branch overwrites its running
score with, in event order. -/
def statsEmbHome (logs : List RawEvent) : List Int :=
  logs.filterMap
    (fun e => if truthyStr e.scoreHome then pyInt (e.scoreHome.getD "") else none)

def statsEmbAway (logs : List RawEvent) : List Int :=
  logs.filterMap
    (fun e => if truthyStr e.scoreAway then pyInt (e.scoreAway.getD "") else none)

/-- The live branch copies embedded scores: the emitted score sequences
are exactly the per-event parsed values. -/
theorem runLive_scores_eq (gid gdate home away : String) :
    ∀ (logs : List RawEvent) (players : Players) (sts : List GameState),
      runLive gid gdate home away players logs = some sts →
      sts.map (fun s => s.home_score) = liveEmbHome logs ∧
      sts.map (fun s => s.away_score) = liveEmbAway logs := by
  intro logs
  induction logs with
  | nil =>
    intro players sts h
    simp only [runLive, Option.some.injEq] at h
    subst h
    exact ⟨rfl, rfl⟩
  | cons row rest ih =>
    intro players sts h
    obtain ⟨pid, hs, asc, tail, hpid, hhs, has, htail, rfl⟩ :=
      runLive_cons_inv gid gdate home away players row rest sts h
    obtain ⟨ihh, iha⟩ := ih _ tail htail
    constructor
    · simp only [List.map_cons, liveEmbHome, List.filterMap_cons, hhs]
      rw [← liveEmbHome, ihh]
    · simp only [List.map_cons, liveEmbAway, List.filterMap_cons, has]
      rw [← liveEmbAway, iha]

/-- The stats branch keeps its running scores monotone as long as the
truthy embedded scores are monotone from the starting value. -/
theorem runStats_mono (gid gdate home away : String) :
    ∀ (logs : List RawEvent) (players : Players) (curH curA : Int)
      (sts : List GameState),
      runStats gid gdate home away players curH curA logs = some sts →
      (List.Chain' (· ≤ ·) (curH :: statsEmbHome logs) →
        List.Chain' (· ≤ ·) (curH :: sts.map (fun s => s.home_score))) ∧
      (List.Chain' (· ≤ ·) (curA :: statsEmbAway logs) →
        List.Chain' (· ≤ ·) (curA :: sts.map (fun s => s.away_score))) := by
  intro logs
  induction logs with
  | nil =>
    intro players curH curA sts h
    simp only [runStats, Option.some.injEq] at h
    subst h
    exact ⟨fun _ => by simp, fun _ => by simp⟩
  | cons row rest ih =>
    intro players curH curA sts h
    obtain ⟨curH', curA', pid, tail, hch, hca, hpid, htail, rfl⟩ :=
      runStats_cons_inv gid gdate home away players curH curA row rest sts h
    obtain ⟨ihh, iha⟩ := ih _ curH' curA' tail htail
    constructor
    · intro hchain
      by_cases htr : truthyStr row.scoreHome = true
      · have hf : (if truthyStr row.scoreHome then pyInt (row.scoreHome.getD "")
            else none) = some curH' := by
          rw [if_pos htr]
          have := hch
          rwa [statsScore, if_pos htr] at this
        have hemb : statsEmbHome (row :: rest) = curH' :: statsEmbHome rest := by
          simp [statsEmbHome, List.filterMap_cons, hf]
        rw [hemb] at hchain
        obtain ⟨hle, hrest⟩ := List.chain'_cons.mp hchain
        simp only [List.map_cons]
        exact List.chain'_cons.mpr ⟨hle, ihh hrest⟩
      · have hb : truthyStr row.scoreHome = false := by simpa using htr
        have hcur : curH' = curH := by
          have h0 := hch
          rw [statsScore, hb] at h0
          simp at h0
          exact h0.symm
        subst hcur
        have hemb : statsEmbHome (row :: rest) = statsEmbHome rest := by
          simp [statsEmbHome, List.filterMap_cons, hb]
        rw [hemb] at hchain
        simp only [List.map_cons]
        exact List.chain'_cons.mpr ⟨le_refl _, ihh hchain⟩
    · intro hchain
      by_cases htr : truthyStr row.scoreAway = true
      · have hf : (if truthyStr row.scoreAway then pyInt (row.scoreAway.getD "")
            else none) = some curA' := by
          rw [if_pos htr]
          have := hca
          rwa [statsScore, if_pos htr] at this
        have hemb : statsEmbAway (row :: rest) = curA' :: statsEmbAway rest := by
          simp [statsEmbAway, List.filterMap_cons, hf]
        rw [hemb] at hchain
        obtain ⟨hle, hrest⟩ := List.chain'_cons.mp hchain
        simp only [List.map_cons]
        exact List.chain'_cons.mpr ⟨hle, iha hrest⟩
      · have hb : truthyStr row.scoreAway = false := by simpa using htr
        have hcur : curA' = curA := by
          have h0 := hca
          rw [statsScore, hb] at h0
          simp at h0
          exact h0.symm
        subst hcur
        have hemb : statsEmbAway (row :: rest) = statsEmbAway rest := by
          simp [statsEmbAway, List.filterMap_cons, hb]
        rw [hemb] at hchain
        simp only [List.map_cons]
        exact List.chain'_cons.mpr ⟨le_refl _, iha hchain⟩

/-- Every element of a chain led by 0 is non-negative. -/
theorem chain'_zero_nonneg (l : List Int)
    (h : List.Chain' (· ≤ ·) ((0 : Int) :: l)) : ∀ x ∈ l, 0 ≤ x := by
  have hp : List.Pairwise (· ≤ ·) ((0 : Int) :: l) :=
    List.chain'_iff_pairwise.mp h
  exact fun x hx => (List.pairwise_cons.mp hp).1 x hx

/-- Case analysis of `processGame` over the processed log list. -/
theorem processGame_branches (gid : String) (info : GameInfo)
    (sts : List GameState) (logs : List RawEvent)
    (h1 : processGame gid info = some sts)
    (h2 : processedLogs info.pbp_logs = some logs) :
    (logs = [] ∧ sts = []) ∨
    (logs ≠ [] ∧ (logs.headD dummyEvent).orderNumber.isSome = true ∧
      runLive gid (gdateOf info) info.home info.away {} logs = some sts) ∨
    (logs ≠ [] ∧ (logs.headD dummyEvent).orderNumber.isSome = false ∧
      runStats gid (gdateOf info) info.home info.away {} 0 0 logs = some sts) := by
  unfold processGame at h1
  by_cases hv1 : ¬ validGameId gid = true
  · rw [if_pos hv1] at h1
    exact Option.noConfusion h1
  · rw [if_neg hv1] at h1
    by_cases hv2 : ¬ validDate (gdateOf info) = true
    · rw [if_pos hv2] at h1
      exact Option.noConfusion h1
    · rw [if_neg hv2] at h1
      rw [h2, Option.some_bind] at h1
      cases logs with
      | nil =>
        left
        exact ⟨rfl, by simpa using h1.symm⟩
      | cons first restl =>
        have h1' : (if first.orderNumber.isSome then
              runLive gid (gdateOf info) info.home info.away {} (first :: restl)
            else
              runStats gid (gdateOf info) info.home info.away {} 0 0
                (first :: restl)) = some sts := h1
        by_cases hord : first.orderNumber.isSome = true
        · right; left
          rw [if_pos hord] at h1'
          exact ⟨by simp, by simpa using hord, h1'⟩
        · right; right
          rw [if_neg hord] at h1'
          exact ⟨by simp, by simpa using hord, h1'⟩

/-! ### Claim C1 -/

/-- C1: for every game processed by `create_game_states`, the emitted
sequence has one state per surviving event; a state is final exactly when
its event is the last element of the sorted, description-filtered list AND
that event's `actionType` is `"game"` with `subType` `"end"`; and at most
one state is final. -/
theorem c1_terminal_state_marking (gid : String) (info : GameInfo)
    (sts : List GameState) (logs : List RawEvent) (i : Nat)
    (h1 : processGame gid info = some sts)
    (h2 : processedLogs info.pbp_logs = some logs)
    (hi : i < sts.length) :
    sts.length = logs.length ∧
    ((sts.getD i dummyState).is_final_state =
      (decide (i = logs.length - 1) &&
        ((logs.getD i dummyEvent).actionType == some "game") &&
        ((logs.getD i dummyEvent).subType == some "end"))) ∧
    sts.countP (fun s => s.is_final_state) ≤ 1 := by
  rcases processGame_branches gid info sts logs h1 h2 with
    ⟨hlogs, hsts⟩ | ⟨hne, hord, hrun⟩ | ⟨hne, hord, hrun⟩
  · subst hsts
    exact absurd hi (by simp)
  · obtain ⟨hlen, hspec⟩ := runLive_spec _ _ _ _ logs _ sts hrun
    exact ⟨hlen, (hspec i hi).1, runLive_count _ _ _ _ logs _ sts hrun⟩
  · obtain ⟨hlen, hfin, _, _⟩ := runStats_spec _ _ _ _ logs _ 0 0 sts hrun
    exact ⟨hlen, hfin i hi, runStats_count _ _ _ _ logs _ 0 0 sts hrun⟩

/-- A live-shape game ending in an explicit game-end event. -/
def c1e1 : RawEvent :=
  { period := some 4, clock := some "PT00M30.00S", orderNumber := some 10,
    description := some "Jump Shot", scoreHome := some "99",
    scoreAway := some "95" }
def c1e2 : RawEvent :=
  { period := some 4, clock := some "PT00M00.00S", orderNumber := some 11,
    description := some "Game End", actionType := some "game",
    subType := some "end", scoreHome := some "99", scoreAway := some "95" }
def c1info : GameInfo := ⟨"AAA", "BBB", "2024-01-15T00:00:00", [c1e1, c1e2]⟩
def c1sts : List GameState := (processGame "0022300001" c1info).getD []
def c1logs : List RawEvent := (processedLogs c1info.pbp_logs).getD []

/-- C1, witness for `c1_terminal_state_marking` at the last state of a
concrete completed game. -/
theorem c1_terminal_state_marking_witness :
    c1sts.length = c1logs.length ∧
    ((c1sts.getD 1 dummyState).is_final_state =
      (decide (1 = c1logs.length - 1) &&
        ((c1logs.getD 1 dummyEvent).actionType == some "game") &&
        ((c1logs.getD 1 dummyEvent).subType == some "end"))) ∧
    c1sts.countP (fun s => s.is_final_state) ≤ 1 :=
  c1_terminal_state_marking "0022300001" c1info c1sts c1logs 1
    (by decide) (by decide) (by decide)

/-! ### Claim C2 -/

/-- C2, amended: score propagation differs by shape.  In the live shape
(`orderNumber` present) there is NO carry-forward: every snapshot's scores
are parsed from its own event's score strings, defaulting to 0 when the
field is absent.  In the stats shape the running score (starting at 0) is
overwritten only when the event's score field is truthy (present and
non-empty) and carried forward unchanged otherwise. -/
theorem c2_score_propagation (gid : String) (info : GameInfo)
    (sts : List GameState) (logs : List RawEvent) (i : Nat)
    (h1 : processGame gid info = some sts)
    (h2 : processedLogs info.pbp_logs = some logs) :
    ((logs.headD dummyEvent).orderNumber.isSome = true → i < sts.length →
      liveScore (logs.getD i dummyEvent).scoreHome
        = some ((sts.getD i dummyState).home_score) ∧
      liveScore (logs.getD i dummyEvent).scoreAway
        = some ((sts.getD i dummyState).away_score)) ∧
    ((logs.headD dummyEvent).orderNumber.isSome = false → logs ≠ [] →
      (0 < sts.length →
        statsScore 0 (logs.getD 0 dummyEvent).scoreHome
          = some ((sts.getD 0 dummyState).home_score) ∧
        statsScore 0 (logs.getD 0 dummyEvent).scoreAway
          = some ((sts.getD 0 dummyState).away_score)) ∧
      (i + 1 < sts.length →
        statsScore ((sts.getD i dummyState).home_score)
            ((logs.getD (i + 1) dummyEvent).scoreHome)
          = some ((sts.getD (i + 1) dummyState).home_score) ∧
        statsScore ((sts.getD i dummyState).away_score)
            ((logs.getD (i + 1) dummyEvent).scoreAway)
          = some ((sts.getD (i + 1) dummyState).away_score))) := by
  rcases processGame_branches gid info sts logs h1 h2 with
    ⟨hlogs, hsts⟩ | ⟨hne, hord, hrun⟩ | ⟨hne, hord, hrun⟩
  · subst hlogs
    exact ⟨fun hord _ => by simpa [dummyEvent] using hord,
      fun _ habs => absurd rfl habs⟩
  · obtain ⟨hlen, hspec⟩ := runLive_spec _ _ _ _ logs _ sts hrun
    refine ⟨fun _ hi => ⟨(hspec i hi).2.1, (hspec i hi).2.2⟩, fun hfalse _ => ?_⟩
    rw [hord] at hfalse
    exact Bool.noConfusion hfalse
  · obtain ⟨hlen, _, hfirst, hstep⟩ := runStats_spec _ _ _ _ logs _ 0 0 sts hrun
    refine ⟨fun htrue _ => ?_, fun _ _ => ⟨hfirst, hstep i⟩⟩
    rw [hord] at htrue
    exact Bool.noConfusion htrue

/-- The live-shape game of the C2/C3 counterexamples: the first event
embeds scores 5-3, the second carries no score fields at all. -/
def c2e1 : RawEvent :=
  { period := some 1, clock := some "PT12M00.00S", orderNumber := some 1,
    description := some "Jump Shot", scoreHome := some "5",
    scoreAway := some "3" }
def c2e2 : RawEvent :=
  { period := some 1, clock := some "PT11M00.00S", orderNumber := some 2,
    description := some "Rebound" }
def c2info : GameInfo := ⟨"AAA", "BBB", "2024-01-15T00:00:00", [c2e1, c2e2]⟩
def c2sts : List GameState := (processGame "0022300001" c2info).getD []

/-- C2, counterexample: in the live shape, an event without a score field
does NOT inherit the previous running score — the snapshot's score is
reset to the default 0 (5-3 followed by 0-0). -/
theorem c2_counterexample :
    processGame "0022300001" c2info = some c2sts ∧
    (c2sts.getD 1 dummyState).play_id = 2 ∧
    ((processedLogs c2info.pbp_logs).getD []).getD 1 dummyEvent
      = c2e2 ∧
    c2e2.scoreHome = none ∧
    (c2sts.getD 0 dummyState).home_score = 5 ∧
    (c2sts.getD 1 dummyState).home_score = 0 := by
  decide

/-- C2, witness for `c2_score_propagation`: the live conjunct applied to
the same concrete game at index 1. -/
theorem c2_score_propagation_witness :
    liveScore ((((processedLogs c2info.pbp_logs).getD []).getD 1
        dummyEvent).scoreHome)
      = some ((c2sts.getD 1 dummyState).home_score) ∧
    liveScore ((((processedLogs c2info.pbp_logs).getD []).getD 1
        dummyEvent).scoreAway)
      = some ((c2sts.getD 1 dummyState).away_score) :=
  (c2_score_propagation "0022300001" c2info c2sts
      ((processedLogs c2info.pbp_logs).getD []) 1
      (by decide) (by decide)).1 (by decide) (by decide)

/-! ### Claim C3 -/

/-- C3, amended: `create_game_states` copies embedded scores and does not
itself enforce non-negativity or monotonicity.  The emitted score
sequences are non-decreasing and non-negative in emission order exactly
when the embedded inputs warrant it: in the live shape, when the
per-event parsed scores (0 for an absent field) form a chain from 0; in
the stats shape, when the truthy embedded scores form a chain from the
initial running score 0.  Ascending `play_id` order coincides with
emission order only when the sort additionally leaves `play_id`
non-decreasing. -/
theorem c3_monotonicity (gid : String) (info : GameInfo)
    (sts : List GameState) (logs : List RawEvent)
    (h1 : processGame gid info = some sts)
    (h2 : processedLogs info.pbp_logs = some logs) :
    ((logs.headD dummyEvent).orderNumber.isSome = true →
      (List.Chain' (· ≤ ·) ((0 : Int) :: liveEmbHome logs) →
        List.Chain' (· ≤ ·) ((0 : Int) :: sts.map (fun s => s.home_score)) ∧
        ∀ s ∈ sts, 0 ≤ s.home_score) ∧
      (List.Chain' (· ≤ ·) ((0 : Int) :: liveEmbAway logs) →
        List.Chain' (· ≤ ·) ((0 : Int) :: sts.map (fun s => s.away_score)) ∧
        ∀ s ∈ sts, 0 ≤ s.away_score)) ∧
    ((logs.headD dummyEvent).orderNumber.isSome = false → logs ≠ [] →
      (List.Chain' (· ≤ ·) ((0 : Int) :: statsEmbHome logs) →
        List.Chain' (· ≤ ·) ((0 : Int) :: sts.map (fun s => s.home_score)) ∧
        ∀ s ∈ sts, 0 ≤ s.home_score) ∧
      (List.Chain' (· ≤ ·) ((0 : Int) :: statsEmbAway logs) →
        List.Chain' (· ≤ ·) ((0 : Int) :: sts.map (fun s => s.away_score)) ∧
        ∀ s ∈ sts, 0 ≤ s.away_score)) := by
  have hnonneg : ∀ (l : List GameState) (f : GameState → Int),
      List.Chain' (· ≤ ·) ((0 : Int) :: l.map f) → ∀ s ∈ l, 0 ≤ f s := by
    intro l f hch s hs
    exact chain'_zero_nonneg _ hch (f s) (List.mem_map.mpr ⟨s, hs, rfl⟩)
  rcases processGame_branches gid info sts logs h1 h2 with
    ⟨hlogs, hsts⟩ | ⟨hne, hord, hrun⟩ | ⟨hne, hord, hrun⟩
  · subst hlogs
    exact ⟨fun hord => by simpa [dummyEvent] using hord,
      fun _ habs => absurd rfl habs⟩
  · obtain ⟨hmh, hma⟩ := runLive_scores_eq _ _ _ _ logs _ sts hrun
    refine ⟨fun _ => ⟨fun hch => ?_, fun hch => ?_⟩, fun hfalse _ => ?_⟩
    · rw [← hmh] at hch
      exact ⟨hch, hnonneg sts _ hch⟩
    · rw [← hma] at hch
      exact ⟨hch, hnonneg sts _ hch⟩
    · rw [hord] at hfalse
      exact Bool.noConfusion hfalse
  · obtain ⟨hmonoh, hmonoa⟩ := runStats_mono _ _ _ _ logs _ 0 0 sts hrun
    refine ⟨fun htrue => ?_, fun _ _ => ⟨fun hch => ?_, fun hch => ?_⟩⟩
    · rw [hord] at htrue
      exact Bool.noConfusion htrue
    · exact ⟨hmonoh hch, hnonneg sts _ (hmonoh hch)⟩
    · exact ⟨hmonoa hch, hnonneg sts _ (hmonoa hch)⟩

/-- C3, counterexample: a processed game whose emitted states have
strictly increasing `play_id` but a decreasing `home_score` (5 then 0),
because the second event carries no embedded score in the live shape. -/
theorem c3_counterexample :
    processGame "0022300001" c2info = some c2sts ∧
    c2sts.map (fun s => (s.play_id, s.home_score)) = [(1, 5), (2, 0)] := by
  decide

/-- C3, witness for `c3_monotonicity`: the stats-shape side at a concrete
game whose embedded scores are monotone. -/
def c3e1 : RawEvent :=
  { period := some 1, clock := some "PT12M00.00S", actionId := some 1,
    description := some "Jump Shot (2 PTS)", scoreHome := some "2",
    scoreAway := some "0" }
def c3e2 : RawEvent :=
  { period := some 1, clock := some "PT11M00.00S", actionId := some 2,
    description := some "Rebound" }
def c3info : GameInfo := ⟨"AAA", "BBB", "2024-01-15T00:00:00", [c3e1, c3e2]⟩
def c3sts : List GameState := (processGame "0022300002" c3info).getD []
def c3logs : List RawEvent := (processedLogs c3info.pbp_logs).getD []

theorem c3_monotonicity_witness :
    List.Chain' (· ≤ ·) ((0 : Int) :: c3sts.map (fun s => s.home_score)) ∧
    ∀ s ∈ c3sts, 0 ≤ s.home_score := by
  have hemb : statsEmbHome c3logs = [(2 : Int)] := by decide
  have hch : List.Chain' (· ≤ ·) ((0 : Int) :: statsEmbHome c3logs) := by
    rw [hemb]
    exact List.chain'_cons.mpr ⟨by norm_num, List.chain'_singleton _⟩
  exact ((c3_monotonicity "0022300002" c3info c3sts c3logs (by decide)
      (by decide)).2 (by decide) (by decide)).1 hch

/-! ### Exception propagation out of the sort and the batch loop -/

theorem keyedLogs_none (logs : List RawEvent) (e : RawEvent)
    (hmem : e ∈ logs) (hkey : sortKey e = none) : keyedLogs logs = none := by
  induction logs with
  | nil => cases hmem
  | cons l rest ih =>
    rcases List.mem_cons.mp hmem with rfl | htail
    · simp [keyedLogs, hkey]
    · cases hk : sortKey l with
      | none => simp [keyedLogs, hk]
      | some k => simp [keyedLogs, hk, ih htail]

theorem processGame_bad_clock (gid : String) (info : GameInfo) (e : RawEvent)
    (hmem : e ∈ info.pbp_logs)
    (hdur : durationToSeconds (e.clock.getD "PT00M00.00S") = none) :
    processGame gid info = none := by
  have hne : info.pbp_logs ≠ [] := List.ne_nil_of_mem hmem
  have hkey : sortKey e = none := by
    simp [sortKey, hdur]
  have hkeyed : keyedLogs info.pbp_logs = none :=
    keyedLogs_none info.pbp_logs e hmem hkey
  have hsort : sortLogs info.pbp_logs = none := by
    simp [sortLogs, hkeyed]
  have hproc : processedLogs info.pbp_logs = none := by
    have hempf : info.pbp_logs.isEmpty = false := by
      simpa [List.isEmpty_iff] using hne
    simp [processedLogs, hempf, hsort]
  unfold processGame
  by_cases hv1 : ¬ validGameId gid = true
  · rw [if_pos hv1]
  · rw [if_neg hv1]
    by_cases hv2 : ¬ validDate (gdateOf info) = true
    · rw [if_pos hv2]
    · rw [if_neg hv2]
      rw [hproc]
      rfl

theorem processAll_none (input : List (String × GameInfo)) (gid : String)
    (info : GameInfo) (hmem : (gid, info) ∈ input)
    (hfail : processGame gid info = none) : processAll input = none := by
  induction input with
  | nil => cases hmem
  | cons p rest ih =>
    rcases List.mem_cons.mp hmem with heq | htail
    · rw [← heq]
      simp [processAll, hfail]
    · cases hpg : processGame p.1 p.2 with
      | none => simp [processAll, hpg]
      | some sts => simp [processAll, hpg, ih htail]

/-! ### Claim C8 -/

/-- C8, amended: the malformation handling actually implemented.  A
missing clock is defaulted to `"PT00M00.00S"` and so contributes zero
remaining seconds to the sort key, and description-less events are
dropped — without affecting other games.  But an UNPARSABLE clock string
raises inside the sort; the batch-level handler catches it and returns an
empty dict, discarding the results of EVERY game in the batch (the caller
still sees no exception).  A team code that matches neither tricode does
NOT suppress player attribution: whenever the player fields are present
and the code is truthy, the player is attributed to the away side unless
the code equals the home tricode exactly; only an absent or empty team
code yields no attribution. -/
theorem c8_local_recovery_amended :
    (∀ e : RawEvent, e.clock = none →
      (sortKey e).map (fun k => Dec.eqv k.2.1 (Dec.ofInt 0)) = some true) ∧
    (∀ (logs out : List RawEvent), processedLogs logs = some out →
      ∀ e ∈ out, e.description.isSome = true) ∧
    (∀ (input : List (String × GameInfo)) (gid : String) (info : GameInfo)
        (e : RawEvent), (gid, info) ∈ input → e ∈ info.pbp_logs →
      durationToSeconds (e.clock.getD "PT00M00.00S") = none →
      createGameStates input = []) ∧
    (∀ (home : String) (players : Players) (row : RawEvent) (pid : Int)
        (pname t : String), row.personId = some pid →
      row.playerNameI = some pname → row.teamTricode = some t → t ≠ "" →
      t ≠ home →
      (updatePlayersLive home players row).home = players.home ∧
      (updatePlayersLive home players row).away =
        (match row.pointsTotal with
         | some pts => setPoints (ensurePlayer players.away pid pname) pid pts
         | none => ensurePlayer players.away pid pname)) ∧
    (∀ (home : String) (players : Players) (row : RawEvent),
      (row.teamTricode = none ∨ row.teamTricode = some "") →
      updatePlayersLive home players row = players ∧
      updatePlayersStats home players row = players) := by
  refine ⟨?_, ?_, ?_, ?_, ?_⟩
  · intro e hc
    have hd : durationToSeconds "PT00M00.00S" = some ⟨0, 2⟩ := by decide
    simp [sortKey, hc, hd, Dec.eqv, Dec.neg, Dec.ofInt]
  · intro logs out h e he
    unfold processedLogs at h
    by_cases hemp : logs.isEmpty = true
    · rw [if_pos hemp] at h
      obtain rfl : out = [] := by simpa using h.symm
      cases he
    · rw [if_neg hemp] at h
      cases hs : sortLogs logs with
      | none =>
        rw [hs] at h
        exact Option.noConfusion h
      | some sorted =>
        rw [hs] at h
        obtain rfl : sorted.filter (fun l => l.description.isSome) = out := by
          simpa using h
        exact (List.mem_filter.mp he).2
  · intro input gid info e hmem hlog hdur
    unfold createGameStates
    rw [processAll_none input gid info hmem
      (processGame_bad_clock gid info e hlog hdur)]
    rfl
  · intro home players row pid pname t hpid hname htri hne hnh
    have htruthy : truthyStr (some t) = true := by simpa [truthyStr] using hne
    have hhome : (t = home) = False := by simp [hnh]
    simp only [updatePlayersLive, hpid, hname, htri, htruthy, if_true,
      Option.getD_some, hhome, if_false]
    cases row.pointsTotal <;> simp
  · intro home players row htri
    rcases htri with h | h <;>
      constructor <;>
        simp [updatePlayersLive, updatePlayersStats, h, truthyStr] <;>
      cases row.personId <;> cases row.playerNameI <;> simp

/-- Fixture for the attribution counterexample: a player event whose team
code `"ZZZ"` matches neither the home (`"AAA"`) nor the away (`"BBB"`)
tricode. -/
def c8row : RawEvent :=
  { period := some 1, clock := some "PT10M00.00S", orderNumber := some 1,
    description := some "J. Doe 7 pts", personId := some 77,
    playerNameI := some "J. Doe", teamTricode := some "ZZZ",
    pointsTotal := some 7 }
def c8info : GameInfo := ⟨"AAA", "BBB", "2024-01-15T00:00:00", [c8row]⟩

/-- C8, counterexample: the unknown team code `"ZZZ"` is not treated as
"no player attribution" — the player is attributed to the away team's
map in the emitted state. -/
theorem c8_counterexample :
    c8row.teamTricode = some "ZZZ" ∧ c8info.home = "AAA" ∧
    c8info.away = "BBB" ∧
    (((processGame "0022300001" c8info).getD []).getD 0 dummyState).players_data
      = ⟨[], [(77, ⟨"J. Doe", 7⟩)]⟩ := by
  decide

/-- A second game whose only event has an unparsable clock string. -/
def c8badEvent : RawEvent :=
  { clock := some "garbage", description := some "tip-off" }
def c8badInfo : GameInfo := ⟨"CCC", "DDD", "2024-01-15T00:00:00", [c8badEvent]⟩
def c8batch : List (String × GameInfo) :=
  [("0022300001", c8info), ("0022300002", c8badInfo)]

/-- C8, witness for `c8_local_recovery_amended`: one malformed clock in
one game's log empties the whole batch result, healthy games included. -/
theorem c8_local_recovery_witness :
    createGameStates c8batch = [] :=
  c8_local_recovery_amended.2.2.1 c8batch "0022300002" c8badInfo c8badEvent
    (by decide) (by decide) (by decide)
